import Mathlib

/-
Verification development for the Realtime-voice tool server.

Shallow embedding of:
  src/server/core/tool_handler.py  (locale resolver + tool invocation router)
  src/server/schedule.py           (calendar event resolver + mutation engine)
  src/server/weather.py            (weather handler)
  src/server/config/config.py      (CLOUD_FUNCTIONS registry keys)

Conventions of the embedding:
  - Python dicts are association lists (insertion-ordered, update-in-place),
    mirroring CPython dict semantics for assignment, pop and membership.
  - datetimes are wall-clock microsecond counts paired with an optional fixed
    UTC offset in minutes (IST = +330); zoneinfo timezones relevant here
    (Asia/Kolkata) have a fixed offset, so astimezone is offset arithmetic.
  - ISO-8601 strings that the code only parses and re-serialises are
    represented by their parse (constructor Val.dtv); a Val.str in a date
    position models a string fromisoformat rejects.
  - raised exceptions are Except.error carrying the message str(e);
    collaborators declared external by the design (calendar backend session,
    note storage, HTTP endpoints, the langdetect detector) are parameters.
-/

namespace RTV

/-- Values of the JSON-ish data manipulated by the server (Python objects
crossing the tool boundary). -/
inductive Val where
  | str : String → Val
  | intv : Int → Val
  | boolv : Bool → Val
  | vnone : Val
  | dtv : Int → Option Int → Val
  | listv : List Val → Val
  | dictv : List (String × Val) → Val

/-- Python dict, as an insertion-ordered association list. -/
abbrev Dict := List (String × Val)

/-- Python d[k] lookup returning an Option (first binding wins; dicts built
here never hold duplicate keys). -/
def dget : Dict → String → Option Val
  | [], _ => Option.none
  | (k2, v2) :: t, k => if k2 = k then some v2 else dget t k

/-- Python d[k] = v: update the existing binding in place, else append. -/
def dset : Dict → String → Val → Dict
  | [], k, v => [(k, v)]
  | (k2, v2) :: t, k, v => if k2 = k then (k, v) :: t else (k2, v2) :: dset t k v

/-- Python d.pop(k, None): drop the binding for k if present. -/
def dpop : Dict → String → Dict
  | [], _ => []
  | (k2, v2) :: t, k => if k2 = k then t else (k2, v2) :: dpop t k

/-- Python truthiness of a value (bool(v)). -/
def Val.truthy : Val → Bool
  | .str s => decide (s ≠ "")
  | .intv n => decide (n ≠ 0)
  | .boolv b => b
  | .vnone => false
  | .dtv _ _ => true
  | .listv l => !l.isEmpty
  | .dictv d => !d.isEmpty

/-- Test for the Python None value (v is None). -/
def isVNone : Val → Bool
  | .vnone => true
  | _ => false

/-- Lower-cased character list of a string (s.lower(), ASCII-adequate for
the comparisons the code performs). -/
def lowChars (s : String) : List Char := s.data.map Char.toLower

/-- Character-list prefix test. -/
def pfxB : List Char → List Char → Bool
  | [], _ => true
  | _ :: _, [] => false
  | a :: as, b :: bs => a == b && pfxB as bs

/-- Python substring containment (needle in hay). -/
def hasSub (n : List Char) : List Char → Bool
  | [] => pfxB n []
  | c :: t => pfxB n (c :: t) || hasSub n t

/- ===== datetimes ===== -/

/-- A Python datetime: wall-clock microseconds since the epoch in its own
zone, plus an optional fixed UTC offset in minutes (tzinfo; none = naive). -/
structure DT where
  wall : Int
  off : Option Int
deriving DecidableEq

def usPerSec : Int := 1000000
def usPerMin : Int := 60 * usPerSec
def usPerHour : Int := 60 * usPerMin
def usPerDay : Int := 24 * usPerHour

/-- schedule.py module constant TIMEZONE. -/
def TIMEZONE : String := "Asia/Kolkata"

/-- UTC offset of Asia/Kolkata in minutes (+05:30). -/
def istOff : Int := 330

/-- schedule.py module constant SEARCH_WINDOW_DAYS. -/
def SEARCH_WINDOW_DAYS : Int := 365

def DT.addMin (d : DT) (m : Int) : DT := { d with wall := d.wall + m * usPerMin }

def DT.addDays (d : DT) (n : Int) : DT := { d with wall := d.wall + n * usPerDay }

/-- dt.replace(hour=0, minute=0, second=0, microsecond=0). -/
def DT.dayStart (d : DT) : DT := { d with wall := d.wall - d.wall % usPerDay }

/-- dt.replace(hour=23, minute=59, second=59, microsecond=999999). -/
def DT.dayEnd (d : DT) : DT :=
  { d with wall := d.wall - d.wall % usPerDay + (usPerDay - 1) }

def DT.hour (d : DT) : Int := d.wall % usPerDay / usPerHour

def DT.minute (d : DT) : Int := d.wall % usPerHour / usPerMin

def DT.second (d : DT) : Int := d.wall % usPerMin / usPerSec

def DT.microsecond (d : DT) : Int := d.wall % usPerSec

/-- schedule.ensure_ist_timezone: a naive datetime is tagged IST without
conversion; an aware one is converted (astimezone on fixed offsets shifts
the wall clock by the offset difference). -/
def ensure_ist_timezone (d : DT) : DT :=
  match d.off with
  | Option.none => { wall := d.wall, off := some istOff }
  | some o => { wall := d.wall + (istOff - o) * usPerMin, off := some istOff }

/- ===== locale resolver (tool_handler.py) ===== -/

/-- One entry of the SUPPORTED_LANGUAGES table. -/
structure LangConfig where
  name : String
  weather_api_code : String
  timezone : String
deriving DecidableEq

/-- tool_handler.SUPPORTED_LANGUAGES, in source order. -/
def SUPPORTED_LANGUAGES : List (String × LangConfig) :=
  [("en", ⟨"English", "en", "Asia/Kolkata"⟩),
   ("ta", ⟨"Tamil", "ta", "Asia/Kolkata"⟩),
   ("hi", ⟨"Hindi", "hi", "Asia/Kolkata"⟩),
   ("te", ⟨"Telugu", "te", "Asia/Kolkata"⟩),
   ("ml", ⟨"Malayalam", "ml", "Asia/Kolkata"⟩),
   ("kn", ⟨"Kannada", "kn", "Asia/Kolkata"⟩),
   ("bn", ⟨"Bengali", "bn", "Asia/Kolkata"⟩),
   ("mr", ⟨"Marathi", "mr", "Asia/Kolkata"⟩),
   ("gu", ⟨"Gujarati", "gu", "Asia/Kolkata"⟩),
   ("pa", ⟨"Punjabi", "pa", "Asia/Kolkata"⟩),
   ("or", ⟨"Odia", "or", "Asia/Kolkata"⟩),
   ("zh", ⟨"Chinese", "zh_cn", "Asia/Shanghai"⟩),
   ("ja", ⟨"Japanese", "ja", "Asia/Tokyo"⟩),
   ("ko", ⟨"Korean", "kr", "Asia/Seoul"⟩),
   ("fr", ⟨"French", "fr", "Europe/Paris"⟩),
   ("de", ⟨"German", "de", "Europe/Berlin"⟩),
   ("es", ⟨"Spanish", "es", "Europe/Madrid"⟩),
   ("it", ⟨"Italian", "it", "Europe/Rome"⟩),
   ("pt", ⟨"Portuguese", "pt", "Europe/Lisbon"⟩),
   ("ru", ⟨"Russian", "ru", "Europe/Moscow"⟩),
   ("ar", ⟨"Arabic", "ar", "Asia/Riyadh"⟩),
   ("fa", ⟨"Persian", "fa", "Asia/Tehran"⟩),
   ("tr", ⟨"Turkish", "tr", "Europe/Istanbul"⟩)]

/-- Key list of SUPPORTED_LANGUAGES (lang_code in SUPPORTED_LANGUAGES). -/
def supportedCodes : List String := SUPPORTED_LANGUAGES.map (fun p => p.1)

def lookupLang (c : String) : Option LangConfig :=
  (SUPPORTED_LANGUAGES.find? (fun p => p.1 == c)).map (fun p => p.2)

/-- The table's English entry, the universal fallback. -/
def englishConfig : LangConfig := ⟨"English", "en", "Asia/Kolkata"⟩

/-- tool_handler.detect_language. The argument det models
langdetect.detect after DetectorFactory.seed is pinned to 0 (the pin makes
the external detector a function of the text; detection failure
(LangDetectException) is Option.none). Empty input returns en before the
detector runs; an unsupported detected code falls back to en. -/
def detect_language (det : String → Option String) (text : String) : String :=
  if text = "" then "en"
  else
    match det text with
    | Option.none => "en"
    | some c => if supportedCodes.contains c then c else "en"

/-- tool_handler.get_language_config: table lookup with the English entry
as default. -/
def get_language_config (c : String) : LangConfig :=
  (lookupLang c).getD englishConfig

/- ===== calendar backend capability ===== -/

/-- One call reaching the external Google Calendar backend. -/
inductive BCall where
  | list : DT → DT → BCall
  | insert : Dict → BCall
  | update : String → Dict → BCall
  | delete : String → BCall

/-- The external calendar backend session (service, calendar_id) plus the
strftime rendering used in messages. Except.error is a raised exception. -/
structure Backend where
  listE : DT → DT → Except String (List Dict)
  insertE : Dict → Except String Dict
  updateE : String → Dict → Except String Dict
  deleteE : String → Except String Unit
  fmt : DT → String

/-- Python truthiness of an optional event-name argument (if event_name:). -/
def truthyName : Option String → Bool
  | Option.none => false
  | some s => decide (s ≠ "")

/-- Summary string an event contributes to name filtering:
event.get('summary', '').lower() — a non-string summary would raise. -/
def evSummary (ev : Dict) : Option String :=
  match dget ev "summary" with
  | Option.none => some ""
  | some (Val.str s) => some s
  | some _ => Option.none

/-- The name-filter comprehension of get_events; Option.none is the raising
path (any event with a non-string summary). -/
def filterByName (n : String) : List Dict → Option (List Dict)
  | [] => some []
  | ev :: t =>
    match evSummary ev, filterByName n t with
    | some s, some rest =>
      some (if hasSub (lowChars n) (lowChars s) then ev :: rest else rest)
    | _, _ => Option.none

/-- The search-window derivation of schedule.get_events, extracted: wide
net for name-only searches, current day when nothing is given, otherwise
IST-normalised dates with day-completion of a missing bound and a
±5-minute buffer. -/
def geWindow (now : DT) (event_name : Option String)
    (start_date end_date : Option DT) : DT × DT :=
  match start_date, end_date with
  | Option.none, Option.none =>
    if truthyName event_name then
      (now.addDays (-SEARCH_WINDOW_DAYS), now.addDays SEARCH_WINDOW_DAYS)
    else
      (now.dayStart, now.dayStart.dayEnd)
  | some s0, Option.none =>
    let s := ensure_ist_timezone s0
    (s.addMin (-5), s.dayEnd.addMin 5)
  | Option.none, some e0 =>
    let e := ensure_ist_timezone e0
    (e.dayStart.addMin (-5), e.addMin 5)
  | some s0, some e0 =>
    ((ensure_ist_timezone s0).addMin (-5), (ensure_ist_timezone e0).addMin 5)

/-- schedule.get_events: search-window derivation, one backend list call,
client-side name filter; every raised exception is caught and turned into
the empty list. Returns the result together with the backend calls issued.
now is get_ist_time(). -/
def get_events (be : Backend) (now : DT) (event_name : Option String)
    (start_date end_date : Option DT) : List Dict × List BCall :=
  let w : DT × DT := geWindow now event_name start_date end_date
  match be.listE w.1 w.2 with
  | Except.error _ => ([], [BCall.list w.1 w.2])
  | Except.ok evs =>
    if truthyName event_name then
      match event_name with
      | some n =>
        match filterByName n evs with
        | some kept => (kept, [BCall.list w.1 w.2])
        | Option.none => ([], [BCall.list w.1 w.2])
      | Option.none => (evs, [BCall.list w.1 w.2])
    else (evs, [BCall.list w.1 w.2])

/- ===== event mutation engine (schedule.py) ===== -/

/-- Failure result dict of a mutation op: {success: False, message, key: None}. -/
def failDict (key msg : String) : Val :=
  Val.dictv [("success", Val.boolv false), ("message", Val.str msg), (key, Val.vnone)]

/-- The search-criteria fragment of the not-found message; ed is the
already-IST event date, rendered by strftime. -/
def searchCriteria (event_name : Option String) (ed : Option DT)
    (fmt : DT → String) : String :=
  let parts : List String :=
    (if truthyName event_name then ["name '" ++ event_name.getD "" ++ "'"] else []) ++
    (match ed with
     | some d => ["date " ++ fmt d]
     | Option.none => [])
  String.intercalate ", " parts

/-- Not-found result dict of update/delete. -/
def notFoundDict (key : String) (event_name : Option String) (ed : Option DT)
    (fmt : DT → String) : Val :=
  Val.dictv [("success", Val.boolv false),
             ("message", Val.str ("No event found with " ++ searchCriteria event_name ed fmt)),
             (key, Val.vnone)]

/-- The start/end normalization block shared verbatim by create_event and
the update merge loop: parse dateTime if present (raising on a non-ISO
value), convert to IST, then force timeZone to the TIMEZONE constant. -/
def normTimeField (v : Dict) : Except String Dict :=
  match dget v "dateTime" with
  | some (Val.dtv w o) =>
    let d := ensure_ist_timezone ⟨w, o⟩
    Except.ok (dset (dset v "dateTime" (Val.dtv d.wall d.off)) "timeZone" (Val.str TIMEZONE))
  | some _ => Except.error "Invalid isoformat string"
  | Option.none => Except.ok (dset v "timeZone" (Val.str TIMEZONE))

/-- The body-preparation half of schedule.create_event: normalize start
and end when they are mapping-shaped (a bad dateTime raises). -/
def createPrep (event_details : Dict) : Except String Dict :=
  let stepStart : Except String Dict :=
    match dget event_details "start" with
    | some (Val.dictv s) =>
      match normTimeField s with
      | Except.error m => Except.error m
      | Except.ok s2 => Except.ok (dset event_details "start" (Val.dictv s2))
    | _ => Except.ok event_details
  match stepStart with
  | Except.error m => Except.error m
  | Except.ok d1 =>
    match dget d1 "end" with
    | some (Val.dictv e) =>
      match normTimeField e with
      | Except.error m => Except.error m
      | Except.ok e2 => Except.ok (dset d1 "end" (Val.dictv e2))
    | _ => Except.ok d1

/-- schedule.create_event: normalize start/end (when mapping-shaped), then
one backend insert; any raised exception becomes the non-raising failure
dict. Returns the result and the backend calls issued. -/
def create_event (be : Backend) (event_details : Dict) : Val × List BCall :=
  match createPrep event_details with
  | Except.error m => (failDict "created_event" ("Error creating event: " ++ m), [])
  | Except.ok body =>
    match be.insertE body with
    | Except.error m =>
      (failDict "created_event" ("Error creating event: " ++ m), [BCall.insert body])
    | Except.ok created =>
      match dget created "id" with
      | some (Val.str i) =>
        (Val.dictv [("success", Val.boolv true),
                    ("message", Val.str ("Event created successfully: " ++ i)),
                    ("created_event", Val.dictv created)], [BCall.insert body])
      | _ =>
        (failDict "created_event" "Error creating event: KeyError id", [BCall.insert body])

/-- The update merge loop of update_event: for each patch item in order, a
None value pops the key, a mapping-shaped start/end value is normalized
(raising on a bad dateTime) and written, anything else overwrites. -/
def mergePatch : Dict → List (String × Val) → Except String Dict
  | body, [] => Except.ok body
  | body, (k, v) :: rest =>
    match v with
    | Val.vnone => mergePatch (dpop body k) rest
    | Val.dictv vd =>
      if k = "start" ∨ k = "end" then
        match normTimeField vd with
        | Except.error m => Except.error m
        | Except.ok vd2 => mergePatch (dset body k (Val.dictv vd2)) rest
      else mergePatch (dset body k v) rest
    | _ => mergePatch (dset body k v) rest

/-- The post-merge step forcing timeZone on a truthy start/end; a truthy
non-mapping value raises TypeError. -/
def stampTZ (body : Dict) (k : String) : Except String Dict :=
  match dget body k with
  | some v =>
    if v.truthy then
      match v with
      | Val.dictv d => Except.ok (dset body k (Val.dictv (dset d "timeZone" (Val.str TIMEZONE))))
      | _ => Except.error "TypeError"
    else Except.ok body
  | Option.none => Except.ok body

/-- The comprehension dropping None-valued keys from the body. -/
def dropNones (body : Dict) : Dict := body.filter (fun p => !(isVNone p.2))

/-- The required-field step: a missing or falsy start/end is re-populated
from the existing event (event.get(k, \x7b\x7d)). -/
def restoreField (event body : Dict) (k : String) : Dict :=
  match dget body k with
  | some v => if v.truthy then body else dset body k ((dget event k).getD (Val.dictv []))
  | Option.none => dset body k ((dget event k).getD (Val.dictv []))

/-- The base of the outgoing update body: the existing event's five
fields with the source's get defaults. -/
def updateBase (event : Dict) : Dict :=
  [("summary", (dget event "summary").getD (Val.str "")),
   ("start", (dget event "start").getD (Val.dictv [])),
   ("end", (dget event "end").getD (Val.dictv [])),
   ("description", (dget event "description").getD (Val.str "")),
   ("location", (dget event "location").getD (Val.str ""))]

/-- The full outgoing-body construction of update_event: base copy of the
existing event's five fields, merge loop, timeZone stamping, None removal,
start/end restoration. -/
def buildUpdateBody (event : Dict) (updated_details : Dict) : Except String Dict :=
  match mergePatch (updateBase event) updated_details with
  | Except.error m => Except.error m
  | Except.ok merged =>
    match stampTZ merged "start" with
    | Except.error m => Except.error m
    | Except.ok s1 =>
      match stampTZ s1 "end" with
      | Except.error m => Except.error m
      | Except.ok s2 =>
        Except.ok (restoreField event (restoreField event (dropNones s2) "start") "end")

/-- The target search window shared by update_event and delete_event: with
an (already IST) event date, ±5 minutes, widened to the full day when the
date has no time component; with no date, now ± SEARCH_WINDOW_DAYS. -/
def mutationWindow (now : DT) (ed : Option DT) : DT × DT :=
  match ed with
  | some d =>
    if d.hour = 0 ∧ d.minute = 0 then (d.dayStart, d.dayEnd)
    else (d.addMin (-5), d.addMin 5)
  | Option.none =>
    (now.addDays (-SEARCH_WINDOW_DAYS), now.addDays SEARCH_WINDOW_DAYS)

/-- schedule.update_event: validation, target resolution through
get_events (first match wins), outgoing-body construction, one backend
update; every raised exception becomes the failure dict. -/
def update_event (be : Backend) (now : DT) (updated_details : Dict)
    (event_name : Option String) (event_date : Option DT) : Val × List BCall :=
  if truthyName event_name = false ∧ event_date.isNone then
    (Val.dictv [("success", Val.boolv false),
                ("message", Val.str "Error: Either event_name or event_date must be provided"),
                ("updated_event", Val.vnone)], [])
  else
    let ed := event_date.map ensure_ist_timezone
    let w := mutationWindow now ed
    let er := get_events be now event_name (some w.1) (some w.2)
    match er.1 with
    | [] => (notFoundDict "updated_event" event_name ed be.fmt, er.2)
    | event :: _ =>
      match dget event "id" with
      | some (Val.str event_id) =>
        match buildUpdateBody event updated_details with
        | Except.error m =>
          (failDict "updated_event" ("Error updating event: " ++ m), er.2)
        | Except.ok body =>
          match be.updateE event_id body with
          | Except.error m =>
            (failDict "updated_event" ("Error updating event: " ++ m),
             er.2 ++ [BCall.update event_id body])
          | Except.ok updated =>
            match dget updated "id" with
            | some (Val.str uid) =>
              (Val.dictv [("success", Val.boolv true),
                          ("message", Val.str ("Event updated successfully: " ++ uid)),
                          ("updated_event", Val.dictv updated)],
               er.2 ++ [BCall.update event_id body])
            | _ =>
              (failDict "updated_event" "Error updating event: KeyError id",
               er.2 ++ [BCall.update event_id body])
      | _ => (failDict "updated_event" "Error updating event: KeyError id", er.2)

/-- Success message of delete_event. -/
def deleteMsg (event_name : Option String) (ed : Option DT) (fmt : DT → String) : String :=
  "Event deleted successfully: " ++
  (if truthyName event_name then "'" ++ event_name.getD "" ++ "'" else "") ++
  (match ed with
   | some d => (if truthyName event_name then " at " else "") ++ fmt d
   | Option.none => "")

/-- schedule.delete_event: validation, target resolution through
get_events (first match wins), one backend delete, identity snapshot of
the deleted event; every raised exception becomes the failure dict. In
this embedding dates arrive parsed, so the isinstance-str re-parse branch
of the source is not exercised. -/
def delete_event (be : Backend) (now : DT)
    (event_name : Option String) (event_date : Option DT) : Val × List BCall :=
  if truthyName event_name = false ∧ event_date.isNone then
    (Val.dictv [("success", Val.boolv false),
                ("message", Val.str "Error: Either event_name or event_date must be provided"),
                ("deleted_event", Val.vnone)], [])
  else
    let ed := event_date.map ensure_ist_timezone
    let w := mutationWindow now ed
    let er := get_events be now event_name (some w.1) (some w.2)
    match er.1 with
    | [] => (notFoundDict "deleted_event" event_name ed be.fmt, er.2)
    | event :: _ =>
      match dget event "id" with
      | some (Val.str event_id) =>
        match be.deleteE event_id with
        | Except.error m =>
          (failDict "deleted_event" ("Error deleting event: " ++ m),
           er.2 ++ [BCall.delete event_id])
        | Except.ok _ =>
          (Val.dictv [("success", Val.boolv true),
                      ("message", Val.str (deleteMsg event_name ed be.fmt)),
                      ("deleted_event", Val.dictv
                        [("id", Val.str event_id),
                         ("summary", (dget event "summary").getD Val.vnone),
                         ("start", (dget event "start").getD Val.vnone),
                         ("end", (dget event "end").getD Val.vnone)])],
           er.2 ++ [BCall.delete event_id])
      | _ => (failDict "deleted_event" "Error deleting event: KeyError id", er.2)

/-- schedule.get_all_events: one backend list over now ± SEARCH_WINDOW_DAYS,
empty list on any raised exception. -/
def get_all_events (be : Backend) (now : DT) : List Dict × List BCall :=
  let s := now.addDays (-SEARCH_WINDOW_DAYS)
  let e := now.addDays SEARCH_WINDOW_DAYS
  match be.listE s e with
  | Except.error _ => ([], [BCall.list s e])
  | Except.ok evs => (evs, [BCall.list s e])

/- ===== weather handler (weather.py) ===== -/

/-- weather.get_weather. The source line binding city from params is
commented out, so the first use of city (the falsiness test, which sits
before the try block) raises NameError before any HTTP request; the rest
of the function is unreachable, and the embedding is that raise. -/
def get_weather (_params : Dict) : Except String Val :=
  Except.error "name city is not defined"

/- ===== tool invocation router (tool_handler.py) ===== -/

/-- Keys of config.CLOUD_FUNCTIONS (the dict literal in config.py; its
values come from the environment and may be unset, but membership tests
see every key). -/
def CLOUD_FUNCTION_KEYS : List String :=
  ["get_weather", "get_weather_forecast", "get_next_appointment", "get_past_appointments"]

/-- Every tool name execute_tool classifies into a handler: the branch
conditions of its if/elif chain plus the CLOUD_FUNCTIONS keys. -/
def REGISTRY : List String :=
  ["add_note", "get_note", "get_all_notes", "delete_note", "get_date_and_time",
   "get_weather", "create_event", "update_event", "delete_event", "get_events",
   "get_all_events"] ++ CLOUD_FUNCTION_KEYS

/-- An HTTP response from a cloud function: status plus the outcome of
response.json(). -/
structure HttpResp where
  status : Nat
  body : Except String Val

/-- The collaborators execute_tool runs against. Fields model, in order:
the pinned-seed langdetect detector; NoteTaking() construction (notes-file
I/O in the constructor) and the four note operations (note storage is an
external collaborator and its operations always return result dicts);
ZoneInfo validity and datetime.now plus the strftime/timestamp/dst/offset
renderings of the date-time handler; get_calendar_service success, the
calendar backend session and get_ist_time; the CLOUD_FUNCTIONS URL values
(os.getenv, possibly unset) and the HTTP GET issued to them. -/
structure Env where
  det : String → Option String
  noteInit : Except String Unit
  addNote : Val → Val → Dict
  getNote : Val → Dict
  getAllNotes : Dict
  delNote : Val → Dict
  tzValid : String → Bool
  nowIn : String → DT
  fmtDate : DT → String
  fmtTime : DT → String
  fmtDay : DT → String
  fmtFull : DT → String
  tsOf : DT → Int
  dstOf : DT → Bool
  offOf : DT → String
  svc : Bool
  be : Backend
  now : DT
  cloudURL : String → Option String
  httpGet : String → Dict → Except String HttpResp

/-- The language detected for a request: detect_language over
params.get('query', ''), with a non-string query failing the isinstance
guard straight to en. -/
def detectedOf (env : Env) (params : Dict) : String :=
  match dget params "query" with
  | some (Val.str s) => detect_language env.det s
  | _ => "en"

/-- The language-injection step of the router:
result['language'] = \x7b"code": ..., "name": ...\x7d. -/
def injLang (code : String) (cfg : LangConfig) (d : Dict) : Dict :=
  dset d "language" (Val.dictv [("code", Val.str code), ("name", Val.str cfg.name)])

/-- params.get(k): None when the key is absent. -/
def pget (params : Dict) (k : String) : Val :=
  (dget params k).getD Val.vnone

/-- The date-and-time response dict (everything but the branch logic). -/
def dtResponse (env : Env) (detected : String) (cfg : LangConfig)
    (tzname : String) (tzOk : Bool) : Dict :=
  let nowv := env.nowIn tzname
  [("date", Val.str (env.fmtDate nowv)),
   ("time", Val.str (env.fmtTime nowv)),
   ("timezone", Val.str tzname),
   ("timestamp", Val.intv (env.tsOf nowv)),
   ("day_of_week", Val.str (env.fmtDay nowv)),
   ("is_dst", Val.boolv (if tzOk then env.dstOf nowv else false)),
   ("utc_offset", Val.str (if tzOk then env.offOf nowv else "+05:30")),
   ("formatted", Val.str (env.fmtFull nowv)),
   ("language", Val.dictv [("code", Val.str detected), ("name", Val.str cfg.name)])]

/-- The ZoneInfo resolution of the date-time branch: the requested
timezone string (params value or the locale default) when ZoneInfo
accepts it, None when ZoneInfo raises (non-string or invalid name). -/
def tzRequested (env : Env) (params : Dict) (cfg : LangConfig) : Option String :=
  match (dget params "timezone").getD (Val.str cfg.timezone) with
  | Val.str s => if env.tzValid s then some s else Option.none
  | _ => Option.none

/-- The event_date / start_date / end_date parse of the router: absent is
fine, a parsed ISO value is fine, a non-ISO string raises ValueError
(reported as the invalid-format result), any other type raises TypeError
(swallowed by the calendar-branch except). -/
inductive DateParse where
  | absent : DateParse
  | okDate : DT → DateParse
  | valueError : DateParse
  | typeError : DateParse

def parseDateParam (params : Dict) (k : String) : DateParse :=
  match dget params k with
  | Option.none => DateParse.absent
  | some (Val.dtv w o) => DateParse.okDate ⟨w, o⟩
  | some (Val.str _) => DateParse.valueError
  | some _ => DateParse.typeError

/-- The router's optional event-name argument; a non-string name behaves
as no usable name and is modeled as absent. -/
def nameParam (params : Dict) (k : String) : Option String :=
  match dget params k with
  | some (Val.str s) => some s
  | _ => Option.none

/-- The calendar-operation error wrapper of the router's inner except. -/
def calFail (m : String) : Val :=
  Val.dictv [("error", Val.str ("Calendar operation failed: " ++ m))]

/-- The post-processing of a calendar handler result: a mapping gets
language injected, a sequence is wrapped as events plus language, and any
other value is returned as is (the source's fall-through, written here
with one arm per constructor). -/
def calPost (detected : String) (cfg : LangConfig) (r : Val) : Val :=
  match r with
  | Val.dictv d => Val.dictv (injLang detected cfg d)
  | Val.listv l =>
    Val.dictv [("events", Val.listv l),
               ("language", Val.dictv [("code", Val.str detected),
                                       ("name", Val.str cfg.name)])]
  | Val.str s => Val.str s
  | Val.intv n => Val.intv n
  | Val.boolv b => Val.boolv b
  | Val.vnone => Val.vnone
  | Val.dtv w o => Val.dtv w o

/-- tool_handler.execute_tool: locale resolution, registry dispatch,
per-branch handling, language stamping, and the outer catch-all turning
any raised exception into an error dict. Returns the result value and the
calendar-backend calls issued. -/
def execute_tool (env : Env) (tool_name : String) (params : Dict) : Val × List BCall :=
  let detected := detectedOf env params
  let cfg := get_language_config detected
  match env.noteInit with
  | Except.error m => (Val.dictv [("error", Val.str ("Tool execution failed: " ++ m))], [])
  | Except.ok _ =>
    if tool_name = "add_note" then
      (Val.dictv (injLang detected cfg
        (env.addNote (pget params "note_name") (pget params "content"))), [])
    else if tool_name = "get_note" then
      (Val.dictv (injLang detected cfg (env.getNote (pget params "note_name"))), [])
    else if tool_name = "get_all_notes" then
      (Val.dictv (injLang detected cfg env.getAllNotes), [])
    else if tool_name = "delete_note" then
      (Val.dictv (injLang detected cfg (env.delNote (pget params "note_name"))), [])
    else if tool_name = "get_date_and_time" then
      match tzRequested env params cfg with
      | some tzname => (Val.dictv (dtResponse env detected cfg tzname true), [])
      | Option.none =>
        if env.tzValid cfg.timezone then
          (Val.dictv (dtResponse env detected cfg cfg.timezone false), [])
        else
          (Val.dictv [("error", Val.str "Tool execution failed: ZoneInfoNotFoundError")], [])
    else if tool_name = "get_weather" then
      let weather_params := dset params "lang" (Val.str cfg.weather_api_code)
      match get_weather weather_params with
      | Except.error m =>
        (Val.dictv [("error", Val.str ("Tool execution failed: " ++ m))], [])
      | Except.ok w =>
        match w with
        | Val.dictv d => (Val.dictv (injLang detected cfg d), [])
        | v => (v, [])
    else if tool_name = "create_event" ∨ tool_name = "update_event" ∨
            tool_name = "delete_event" ∨ tool_name = "get_events" ∨
            tool_name = "get_all_events" then
      if env.svc = false then
        (Val.dictv [("error", Val.str "Failed to initialize calendar service")], [])
      else if tool_name = "create_event" then
        match dget params "start" with
        | some v =>
          match v with
          | Val.dictv s =>
            let p1 := dset params "start" (Val.dictv (dset s "timeZone" (Val.str cfg.timezone)))
            match dget p1 "end" with
            | some v2 =>
              match v2 with
              | Val.dictv e =>
                let p2 := dset p1 "end" (Val.dictv (dset e "timeZone" (Val.str cfg.timezone)))
                let r := create_event env.be p2
                (calPost detected cfg r.1, r.2)
              | _ => (calFail "TypeError", [])
            | Option.none =>
              let r := create_event env.be p1
              (calPost detected cfg r.1, r.2)
          | _ => (calFail "TypeError", [])
        | Option.none =>
          match dget params "end" with
          | some v2 =>
            match v2 with
            | Val.dictv e =>
              let p2 := dset params "end" (Val.dictv (dset e "timeZone" (Val.str cfg.timezone)))
              let r := create_event env.be p2
              (calPost detected cfg r.1, r.2)
            | _ => (calFail "TypeError", [])
          | Option.none =>
            let r := create_event env.be params
            (calPost detected cfg r.1, r.2)
      else if tool_name = "update_event" then
        match parseDateParam params "event_date" with
        | DateParse.valueError =>
          (Val.dictv [("error", Val.str "Invalid event_date format. Use ISO format.")], [])
        | DateParse.typeError => (calFail "TypeError", [])
        | dp =>
          let ed : Option DT := match dp with | DateParse.okDate d => some d | _ => Option.none
          match (dget params "updated_details").getD (Val.dictv []) with
          | Val.dictv ud =>
            let ud1 :=
              match dget ud "start" with
              | some (Val.dictv s) => some (dset ud "start" (Val.dictv (dset s "timeZone" (Val.str cfg.timezone))))
              | some _ => Option.none
              | Option.none => some ud
            match ud1 with
            | Option.none => (calFail "TypeError", [])
            | some ud1v =>
              let ud2 :=
                match dget ud1v "end" with
                | some (Val.dictv e) => some (dset ud1v "end" (Val.dictv (dset e "timeZone" (Val.str cfg.timezone))))
                | some _ => Option.none
                | Option.none => some ud1v
              match ud2 with
              | Option.none => (calFail "TypeError", [])
              | some ud2v =>
                let r := update_event env.be env.now ud2v (nameParam params "event_name") ed
                (calPost detected cfg r.1, r.2)
          | _ => (calFail "TypeError", [])
      else if tool_name = "delete_event" then
        match parseDateParam params "event_date" with
        | DateParse.valueError =>
          (Val.dictv [("error", Val.str "Invalid event_date format. Use ISO format.")], [])
        | DateParse.typeError => (calFail "TypeError", [])
        | dp =>
          let ed : Option DT := match dp with | DateParse.okDate d => some d | _ => Option.none
          let r := delete_event env.be env.now (nameParam params "event_name") ed
          (calPost detected cfg r.1, r.2)
      else if tool_name = "get_events" then
        match parseDateParam params "start_date" with
        | DateParse.valueError =>
          (Val.dictv [("error", Val.str "Invalid start_date format. Use ISO format.")], [])
        | DateParse.typeError => (calFail "TypeError", [])
        | dps =>
          match parseDateParam params "end_date" with
          | DateParse.valueError =>
            (Val.dictv [("error", Val.str "Invalid end_date format. Use ISO format.")], [])
          | DateParse.typeError => (calFail "TypeError", [])
          | dpe =>
            let sd : Option DT := match dps with | DateParse.okDate d => some d | _ => Option.none
            let ed : Option DT := match dpe with | DateParse.okDate d => some d | _ => Option.none
            let r := get_events env.be env.now (nameParam params "event_name") sd ed
            (calPost detected cfg (Val.listv (r.1.map Val.dictv)), r.2)
      else
        let r := get_all_events env.be env.now
        (calPost detected cfg (Val.listv (r.1.map Val.dictv)), r.2)
    else if CLOUD_FUNCTION_KEYS.contains tool_name then
      let p2 := dset (dset params "language" (Val.str detected)) "language_config"
        (Val.dictv [("name", Val.str cfg.name),
                    ("weather_api_code", Val.str cfg.weather_api_code),
                    ("timezone", Val.str cfg.timezone)])
      match env.cloudURL tool_name with
      | Option.none =>
        (Val.dictv [("error", Val.str "Failed to call cloud function: invalid URL None")], [])
      | some base =>
        match env.httpGet base p2 with
        | Except.error m =>
          (Val.dictv [("error", Val.str ("Failed to call cloud function: " ++ m))], [])
        | Except.ok resp =>
          if resp.status ≠ 200 then
            (Val.dictv [("error", Val.str ("Cloud function returned status " ++ toString resp.status))], [])
          else
            match resp.body with
            | Except.error m =>
              (Val.dictv [("error", Val.str ("Invalid JSON response from cloud function: " ++ m))], [])
            | Except.ok (Val.dictv d) => (Val.dictv (injLang detected cfg d), [])
            | Except.ok (Val.str sv) => (Val.str sv, [])
            | Except.ok (Val.intv n) => (Val.intv n, [])
            | Except.ok (Val.boolv bv) => (Val.boolv bv, [])
            | Except.ok Val.vnone => (Val.vnone, [])
            | Except.ok (Val.dtv w o) => (Val.dtv w o, [])
            | Except.ok (Val.listv l) => (Val.listv l, [])
    else
      (Val.dictv [("error", Val.str ("Unknown tool: " ++ tool_name))], [])

/- ===== concrete collaborators for witnesses ===== -/

/-- A benign calendar backend: empty calendar, echoing writes. -/
def trivBackend : Backend where
  listE := fun _ _ => Except.ok []
  insertE := fun b => Except.ok b
  updateE := fun _ b => Except.ok b
  deleteE := fun _ => Except.ok ()
  fmt := fun _ => ""

/-- A benign environment: failing detector (hence English), healthy note
store, valid timezones, empty calendar, no cloud URLs. -/
def trivEnv : Env where
  det := fun _ => Option.none
  noteInit := Except.ok ()
  addNote := fun _ _ => []
  getNote := fun _ => []
  getAllNotes := []
  delNote := fun _ => []
  tzValid := fun _ => true
  nowIn := fun _ => ⟨0, some istOff⟩
  fmtDate := fun _ => ""
  fmtTime := fun _ => ""
  fmtDay := fun _ => ""
  fmtFull := fun _ => ""
  tsOf := fun _ => 0
  dstOf := fun _ => false
  offOf := fun _ => ""
  svc := true
  be := trivBackend
  now := ⟨0, some istOff⟩
  cloudURL := fun _ => Option.none
  httpGet := fun _ _ => Except.error "no network"

/-- Start instant of an event as the backend orders it (start.dateTime
wall clock; events without one sort as 0). -/
def startWallD (ev : Dict) : Int :=
  match dget ev "start" with
  | some (Val.dictv s) =>
    match dget s "dateTime" with
    | some (Val.dtv w _) => w
    | _ => 0
  | _ => 0


/-- Two same-day events named Sync, earliest first (as the backend orders
them). -/
def syncEv1 : Dict :=
  [("id", Val.str "a1"), ("summary", Val.str "Sync"),
   ("start", Val.dictv [("dateTime", Val.dtv (9 * usPerHour) (some istOff))]),
   ("end", Val.dictv [("dateTime", Val.dtv (10 * usPerHour) (some istOff))])]

def syncEv2 : Dict :=
  [("id", Val.str "a2"), ("summary", Val.str "Sync"),
   ("start", Val.dictv [("dateTime", Val.dtv (15 * usPerHour) (some istOff))]),
   ("end", Val.dictv [("dateTime", Val.dtv (16 * usPerHour) (some istOff))])]

/-- A backend whose list call returns the two Sync events. -/
def syncBE : Backend :=
  { trivBackend with listE := fun _ _ => Except.ok [syncEv1, syncEv2] }

/-- The outgoing update body for syncEv1 under a summary-renaming patch. -/
def c5Body : Dict :=
  [("summary", Val.str "Renamed"),
   ("start", Val.dictv [("dateTime", Val.dtv (9 * usPerHour) (some istOff)),
                        ("timeZone", Val.str "Asia/Kolkata")]),
   ("end", Val.dictv [("dateTime", Val.dtv (10 * usPerHour) (some istOff)),
                      ("timeZone", Val.str "Asia/Kolkata")]),
   ("description", Val.str ""),
   ("location", Val.str "")]

/-- A backend whose list call always raises. -/
def failBE : Backend :=
  { trivBackend with listE := fun _ _ => Except.error "boom" }

/-- An environment whose detector resolves French. -/
def frEnv : Env := { trivEnv with det := fun _ => some "fr" }

/-- A French-query create_event request with naive start/end datetimes. -/
def frParams : Dict :=
  [("query", Val.str "bonjour"),
   ("summary", Val.str "Reunion"),
   ("start", Val.dictv [("dateTime", Val.dtv 0 Option.none)]),
   ("end", Val.dictv [("dateTime", Val.dtv 3600000000 Option.none)])]

/-- The insert body the backend receives for frParams. -/
def frBody : Dict :=
  [("query", Val.str "bonjour"),
   ("summary", Val.str "Reunion"),
   ("start", Val.dictv [("dateTime", Val.dtv 0 (some istOff)),
                        ("timeZone", Val.str "Asia/Kolkata")]),
   ("end", Val.dictv [("dateTime", Val.dtv 3600000000 (some istOff)),
                      ("timeZone", Val.str "Asia/Kolkata")])]

/-- An existing event whose start/end carry a non-IST timezone tag. -/
def c3Event : Dict :=
  [("id", Val.str "e1"), ("summary", Val.str "A"), ("location", Val.str "X"),
   ("start", Val.dictv [("dateTime", Val.dtv 1000 (some 330)),
                        ("timeZone", Val.str "Europe/Paris")]),
   ("end", Val.dictv [("dateTime", Val.dtv 2000 (some 330)),
                      ("timeZone", Val.str "Europe/Paris")])]

/-- A patch overlaying start with a naive dateTime. -/
def c2Patch : Dict := [("start", Val.dictv [("dateTime", Val.dtv 0 Option.none)])]

/-- The outgoing update body for c3Event patched with c2Patch. -/
def c2Out : Dict :=
  [("summary", Val.str "A"),
   ("start", Val.dictv [("dateTime", Val.dtv 0 (some 330)),
                        ("timeZone", Val.str "Asia/Kolkata")]),
   ("end", Val.dictv [("dateTime", Val.dtv 2000 (some 330)),
                      ("timeZone", Val.str "Asia/Kolkata")]),
   ("description", Val.str ""),
   ("location", Val.str "X")]

/-- The outgoing update body for c3Event under patch summary B plus
start None: start re-populated verbatim at the end of the body. -/
def c3Out1 : Dict :=
  [("summary", Val.str "B"),
   ("end", Val.dictv [("dateTime", Val.dtv 2000 (some 330)),
                      ("timeZone", Val.str "Asia/Kolkata")]),
   ("description", Val.str ""),
   ("location", Val.str "X"),
   ("start", Val.dictv [("dateTime", Val.dtv 1000 (some 330)),
                        ("timeZone", Val.str "Europe/Paris")])]

/-- The outgoing update body for c3Event under patch summary B only:
start/end timeZone re-stamped to IST. -/
def c3Out2 : Dict :=
  [("summary", Val.str "B"),
   ("start", Val.dictv [("dateTime", Val.dtv 1000 (some 330)),
                        ("timeZone", Val.str "Asia/Kolkata")]),
   ("end", Val.dictv [("dateTime", Val.dtv 2000 (some 330)),
                      ("timeZone", Val.str "Asia/Kolkata")]),
   ("description", Val.str ""),
   ("location", Val.str "X")]

/- ===== dictionary lemmas ===== -/

/-- Keys of a dict, in order. -/
def dkeys (d : Dict) : List String := d.map (fun p => p.1)

theorem dkeys_nil : dkeys [] = [] := rfl

theorem dkeys_cons (p : String × Val) (t : Dict) : dkeys (p :: t) = p.1 :: dkeys t := rfl

theorem dget_dset_self (d : Dict) (k : String) (v : Val) :
    dget (dset d k v) k = some v := by
  induction d with
  | nil => simp [dset, dget]
  | cons p t ih =>
    by_cases h : p.1 = k
    · simp [dset, dget, h]
    · simp [dset, dget, h, ih]

theorem dget_dset_ne (d : Dict) (k k2 : String) (v : Val) (h : k2 ≠ k) :
    dget (dset d k v) k2 = dget d k2 := by
  have hne : ¬(k = k2) := fun hh => h hh.symm
  induction d with
  | nil => simp [dset, dget, hne]
  | cons p t ih =>
    rcases p with ⟨pk, pv⟩
    by_cases hp : pk = k
    · subst hp
      simp [dset, dget, hne]
    · simp [dset, dget, hp, ih]

theorem dget_dpop_ne (d : Dict) (k k2 : String) (h : k2 ≠ k) :
    dget (dpop d k) k2 = dget d k2 := by
  induction d with
  | nil => simp [dpop]
  | cons p t ih =>
    rcases p with ⟨pk, pv⟩
    by_cases hp : pk = k
    · simp [dpop, dget, hp, show ¬ pk = k2 from fun hh => h (hp.symm.trans hh).symm,
            show ¬ k = k2 from fun hh => h hh.symm]
    · simp [dpop, dget, hp, ih]

theorem dget_eq_none_of_not_mem (d : Dict) (k : String) (h : k ∉ dkeys d) :
    dget d k = Option.none := by
  induction d with
  | nil => simp [dget]
  | cons p t ih =>
    rw [dkeys_cons] at h
    have h1 : ¬ p.1 = k := fun hh => h (hh ▸ List.mem_cons_self _ _)
    have h2 : k ∉ dkeys t := fun hh => h (List.mem_cons_of_mem _ hh)
    simp [dget, h1, ih h2]

theorem dget_dpop_self (d : Dict) (k : String) (h : (dkeys d).Nodup) :
    dget (dpop d k) k = Option.none := by
  induction d with
  | nil => simp [dpop, dget]
  | cons p t ih =>
    rw [dkeys_cons, List.nodup_cons] at h
    by_cases hp : p.1 = k
    · rcases p with ⟨pk, pv⟩
      simp only at hp
      subst hp
      simp [dpop]
      exact dget_eq_none_of_not_mem t pk h.1
    · simp [dpop, dget, hp]
      exact ih h.2

theorem dkeys_dset_mem (d : Dict) (k : String) (v : Val) (h : k ∈ dkeys d) :
    dkeys (dset d k v) = dkeys d := by
  induction d with
  | nil => simp [dkeys_nil] at h
  | cons p t ih =>
    rcases p with ⟨pk, pv⟩
    by_cases hp : pk = k
    · subst hp; simp [dset, dkeys_cons]
    · rw [dkeys_cons] at h
      rcases List.mem_cons.1 h with h1 | h1
      · exact absurd h1.symm hp
      · simp [dset, hp, dkeys_cons, ih h1]

theorem dkeys_dset_not_mem (d : Dict) (k : String) (v : Val) (h : k ∉ dkeys d) :
    dkeys (dset d k v) = dkeys d ++ [k] := by
  induction d with
  | nil => simp [dset, dkeys]
  | cons p t ih =>
    rw [dkeys_cons] at h
    have h1 : ¬ p.1 = k := fun hh => h (hh ▸ List.mem_cons_self _ _)
    have h2 : k ∉ dkeys t := fun hh => h (List.mem_cons_of_mem _ hh)
    simp [dset, h1, dkeys_cons, ih h2]

theorem nodup_dkeys_dset (d : Dict) (k : String) (v : Val) (h : (dkeys d).Nodup) :
    (dkeys (dset d k v)).Nodup := by
  by_cases hm : k ∈ dkeys d
  · rw [dkeys_dset_mem d k v hm]; exact h
  · rw [dkeys_dset_not_mem d k v hm]
    rw [List.nodup_append]
    exact ⟨h, List.nodup_singleton k, by
      intro x hx hk
      simp at hk
      subst hk
      exact hm hx⟩

theorem dkeys_dpop_sublist (d : Dict) (k : String) :
    (dkeys (dpop d k)).Sublist (dkeys d) := by
  induction d with
  | nil => simp [dpop]
  | cons p t ih =>
    rcases p with ⟨pk, pv⟩
    by_cases hp : pk = k
    · simp only [dpop, hp, if_pos rfl, dkeys_cons]
      exact List.sublist_cons_self _ _
    · simp only [dpop, hp, if_neg hp, dkeys_cons]
      exact List.Sublist.cons₂ _ ih

theorem nodup_dkeys_dpop (d : Dict) (k : String) (h : (dkeys d).Nodup) :
    (dkeys (dpop d k)).Nodup :=
  (dkeys_dpop_sublist d k).nodup h

/- ===== resolver lemmas ===== -/

/-- get_events issues exactly one backend list call, over its derived
window, on every path (including the exception path). -/
theorem get_events_calls (be : Backend) (now : DT) (name : Option String)
    (sd ed : Option DT) :
    (get_events be now name sd ed).2 =
      [BCall.list (geWindow now name sd ed).1 (geWindow now name sd ed).2] := by
  unfold get_events
  dsimp only
  repeat first | rfl | split

/- ===== claim C6 ===== -/

/-- Claim C6: update_event and delete_event invoked with neither
event_name nor event_date return the validation-failure result (success
False, message naming the requirement) and issue no backend calendar
call. -/
theorem claim_C6_no_criteria_fails_fast (be : Backend) (now : DT) (upd : Dict)
    (name : Option String) (hname : truthyName name = false) :
    update_event be now upd name Option.none =
      (Val.dictv [("success", Val.boolv false),
                  ("message", Val.str "Error: Either event_name or event_date must be provided"),
                  ("updated_event", Val.vnone)], [])
    ∧ delete_event be now name Option.none =
      (Val.dictv [("success", Val.boolv false),
                  ("message", Val.str "Error: Either event_name or event_date must be provided"),
                  ("deleted_event", Val.vnone)], []) := by
  constructor
  · simp [update_event, hname]
  · simp [delete_event, hname]

/-- Witness for claim C6 at the concrete empty-criteria call. -/
theorem claim_C6_witness :
    update_event trivBackend ⟨0, some istOff⟩ [] Option.none Option.none =
      (Val.dictv [("success", Val.boolv false),
                  ("message", Val.str "Error: Either event_name or event_date must be provided"),
                  ("updated_event", Val.vnone)], []) :=
  (claim_C6_no_criteria_fails_fast trivBackend ⟨0, some istOff⟩ [] Option.none (by decide)).1

/- ===== claim C7 ===== -/

/-- Claim C7: a get_events call with a start date and no end date queries
the backend over a window whose end is the end of the (IST-normalised)
start's day — 23:59:59.999999 of the same day — with the ±5-minute buffer
applied afterwards to both bounds. -/
theorem claim_C7_start_only_window (be : Backend) (now : DT)
    (name : Option String) (s0 : DT) :
    (get_events be now name (some s0) Option.none).2 =
      [BCall.list ((ensure_ist_timezone s0).addMin (-5))
                  ((ensure_ist_timezone s0).dayEnd.addMin 5)]
    ∧ (ensure_ist_timezone s0).dayEnd.hour = 23
    ∧ (ensure_ist_timezone s0).dayEnd.minute = 59
    ∧ (ensure_ist_timezone s0).dayEnd.second = 59
    ∧ (ensure_ist_timezone s0).dayEnd.microsecond = 999999
    ∧ (ensure_ist_timezone s0).dayEnd.dayStart = (ensure_ist_timezone s0).dayStart := by
  refine ⟨?_, ?_, ?_, ?_, ?_, ?_⟩
  · rw [get_events_calls]; rfl
  · simp only [DT.dayEnd, DT.hour, usPerDay, usPerHour, usPerMin, usPerSec]; omega
  · simp only [DT.dayEnd, DT.minute, usPerDay, usPerHour, usPerMin, usPerSec]; omega
  · simp only [DT.dayEnd, DT.second, usPerDay, usPerHour, usPerMin, usPerSec]; omega
  · simp only [DT.dayEnd, DT.microsecond, usPerDay, usPerHour, usPerMin, usPerSec]; omega
  · simp only [DT.dayEnd, DT.dayStart, usPerDay, usPerHour, usPerMin, usPerSec]
    congr 1
    omega

/- ===== claim C8 ===== -/

/-- Claim C8: locale resolution is deterministic over the input text (the
detector's randomness is pinned by the seed, making it a function), and
empty, undetectable, or unsupported-code inputs all resolve to English;
the resolved code is always drawn from the supported table, and
get_language_config is total, so the resolver never raises outward. -/
theorem claim_C8_locale_resolution (det : String → Option String) (t : String) :
    detect_language det t = detect_language det t
    ∧ (t = "" → detect_language det t = "en")
    ∧ (det t = Option.none → detect_language det t = "en")
    ∧ (∀ c, det t = some c → supportedCodes.contains c = false →
        detect_language det t = "en")
    ∧ supportedCodes.contains (detect_language det t) = true := by
  refine ⟨rfl, ?_, ?_, ?_, ?_⟩
  · intro h; simp [detect_language, h]
  · intro h
    unfold detect_language
    by_cases ht : t = "" <;> simp [ht, h]
  · intro c hc hns
    have hns2 : c ∉ supportedCodes := by simpa using hns
    unfold detect_language
    by_cases ht : t = "" <;> simp [ht, hc, hns2]
  · unfold detect_language
    by_cases ht : t = ""
    · simp [ht]; decide
    · simp [ht]
      cases hdt : det t with
      | none => decide
      | some c =>
        by_cases hcs : c ∈ supportedCodes
        · simp [hcs]
        · simp [hcs]; decide

/-- Witness for claim C8 at concrete inputs: empty text, a failing
detector, and an unsupported detected code all land on English. -/
theorem claim_C8_witness :
    detect_language (fun _ => Option.none) "" = "en"
    ∧ detect_language (fun _ => Option.none) "mystery text" = "en"
    ∧ detect_language (fun _ => some "zz") "mystery text" = "en" :=
  ⟨(claim_C8_locale_resolution (fun _ => Option.none) "").2.1 rfl,
   (claim_C8_locale_resolution (fun _ => Option.none) "mystery text").2.2.1 rfl,
   (claim_C8_locale_resolution (fun _ => some "zz") "mystery text").2.2.2.1 "zz" rfl (by decide)⟩

/- ===== claim C4 ===== -/

/-- Claim C4: for every tool name absent from the registry (the router's
branch conditions plus the CLOUD_FUNCTIONS keys), execute_tool returns
the error result Unknown tool: name; the embedding is total, so no fault
reaches the caller. Requires the NoteTaking() construction at the top of
the handler not to raise. -/
theorem claim_C4_unknown_tool (env : Env) (tool : String) (params : Dict)
    (hreg : REGISTRY.contains tool = false)
    (hinit : env.noteInit = Except.ok ()) :
    execute_tool env tool params =
      (Val.dictv [("error", Val.str ("Unknown tool: " ++ tool))], []) := by
  have hmem : tool ∉ REGISTRY := by simpa using hreg
  have hx : ∀ s, s ∈ REGISTRY → ¬ tool = s := fun s hs h => hmem (h ▸ hs)
  have h1 := hx "add_note" (by decide)
  have h2 := hx "get_note" (by decide)
  have h3 := hx "get_all_notes" (by decide)
  have h4 := hx "delete_note" (by decide)
  have h5 := hx "get_date_and_time" (by decide)
  have h6 := hx "get_weather" (by decide)
  have h7 := hx "create_event" (by decide)
  have h8 := hx "update_event" (by decide)
  have h9 := hx "delete_event" (by decide)
  have h10 := hx "get_events" (by decide)
  have h11 := hx "get_all_events" (by decide)
  have hcl : tool ∉ CLOUD_FUNCTION_KEYS := fun hc =>
    hmem (List.mem_append.2 (Or.inr hc))
  have hcloud : CLOUD_FUNCTION_KEYS.contains tool = false := by simpa using hcl
  unfold execute_tool
  rw [hinit]
  simp [h1, h2, h3, h4, h5, h6, h7, h8, h9, h10, h11, hcloud, hcl]

/-- Witness for claim C4 at a concrete unregistered tool name. -/
theorem claim_C4_witness :
    execute_tool trivEnv "frobnicate" [] =
      (Val.dictv [("error", Val.str ("Unknown tool: " ++ "frobnicate"))], []) :=
  claim_C4_unknown_tool trivEnv "frobnicate" [] (by decide) rfl

/- ===== claim C10 ===== -/

/-- Claim C10: every get_weather invocation produces an error-shaped
result and never a weather payload: the handler raises NameError on the
unbound local city before any HTTP request, and the router's outer
catch-all converts it to an error dict (no calendar call is made either). -/
theorem claim_C10_weather_always_fails (env : Env) (params : Dict)
    (hinit : env.noteInit = Except.ok ()) :
    execute_tool env "get_weather" params =
      (Val.dictv [("error", Val.str ("Tool execution failed: " ++ "name city is not defined"))], []) := by
  unfold execute_tool
  rw [hinit]
  simp [get_weather]

/-- Witness for claim C10 at a concrete request carrying a city. -/
theorem claim_C10_witness :
    execute_tool trivEnv "get_weather" [("city", Val.str "Chennai")] =
      (Val.dictv [("error", Val.str ("Tool execution failed: " ++ "name city is not defined"))], []) :=
  claim_C10_weather_always_fails trivEnv [("city", Val.str "Chennai")] rfl

/- ===== claim C5 ===== -/

/-- Claim C5: when the resolver returns several matches, delete_event and
update_event act on the first element: delete removes that event at the
backend and returns its identity snapshot, and update directs its backend
call at that event's id; under the backend's start-ascending ordering the
first element starts no later than every other match, so a later match is
never the one mutated. -/
theorem claim_C5_first_match_mutated (be : Backend) (now : DT)
    (name : Option String) (date : Option DT) (e : Dict) (rest : List Dict)
    (i : String) (upd b : Dict)
    (hname : truthyName name = true)
    (hev : (get_events be now name
        (some (mutationWindow now (date.map ensure_ist_timezone)).1)
        (some (mutationWindow now (date.map ensure_ist_timezone)).2)).1 = e :: rest)
    (hid : dget e "id" = some (Val.str i))
    (hdel : be.deleteE i = Except.ok ())
    (hbody : buildUpdateBody e upd = Except.ok b)
    (hsort : List.Pairwise (fun a b => startWallD a ≤ startWallD b) (e :: rest)) :
    (delete_event be now name date).1 =
      Val.dictv [("success", Val.boolv true),
                 ("message", Val.str (deleteMsg name (date.map ensure_ist_timezone) be.fmt)),
                 ("deleted_event", Val.dictv
                   [("id", Val.str i),
                    ("summary", (dget e "summary").getD Val.vnone),
                    ("start", (dget e "start").getD Val.vnone),
                    ("end", (dget e "end").getD Val.vnone)])]
    ∧ (∀ x ∈ rest, startWallD e ≤ startWallD x)
    ∧ (delete_event be now name date).2 =
        (get_events be now name
          (some (mutationWindow now (date.map ensure_ist_timezone)).1)
          (some (mutationWindow now (date.map ensure_ist_timezone)).2)).2
          ++ [BCall.delete i]
    ∧ (update_event be now upd name date).2 =
        (get_events be now name
          (some (mutationWindow now (date.map ensure_ist_timezone)).1)
          (some (mutationWindow now (date.map ensure_ist_timezone)).2)).2
          ++ [BCall.update i b] := by
  have hfirst : ∀ x ∈ rest, startWallD e ≤ startWallD x :=
    (List.pairwise_cons.1 hsort).1
  refine ⟨?_, hfirst, ?_, ?_⟩
  · unfold delete_event
    simp only [hname]
    rw [hev, if_neg (by simp)]
    dsimp only
    rw [hid]
    dsimp only
    rw [hdel]
  · unfold delete_event
    simp only [hname]
    rw [hev, if_neg (by simp)]
    dsimp only
    rw [hid]
    dsimp only
    rw [hdel]
  · unfold update_event
    simp only [hname]
    rw [hev, if_neg (by simp)]
    dsimp only
    rw [hid]
    dsimp only
    rw [hbody]
    dsimp only
    cases be.updateE i b with
    | error m => rfl
    | ok updated =>
      dsimp only
      cases dget updated "id" with
      | none => rfl
      | some v => cases v <;> rfl

/-- Witness for claim C5: deleting by name Sync with two matches removes
the earliest-starting one (id a1) and returns its snapshot. -/
theorem claim_C5_witness :
    (delete_event syncBE ⟨0, some istOff⟩ (some "Sync") Option.none).1 =
      Val.dictv [("success", Val.boolv true),
                 ("message", Val.str (deleteMsg (some "Sync") Option.none syncBE.fmt)),
                 ("deleted_event", Val.dictv
                   [("id", Val.str "a1"),
                    ("summary", (dget syncEv1 "summary").getD Val.vnone),
                    ("start", (dget syncEv1 "start").getD Val.vnone),
                    ("end", (dget syncEv1 "end").getD Val.vnone)])] :=
  (claim_C5_first_match_mutated syncBE ⟨0, some istOff⟩ (some "Sync") Option.none
    syncEv1 [syncEv2] "a1" [("summary", Val.str "Renamed")] c5Body
    (by decide) rfl rfl rfl rfl
    (List.pairwise_cons.2 ⟨by
      intro x hx
      rw [List.mem_singleton.1 hx]
      decide, List.pairwise_singleton _ _⟩)).1

/- ===== claim C9 ===== -/

/-- Claim C9: get_events converts every backend list failure into the
empty list, so update/delete target resolution over a failing backend
reports the not-found result, indistinguishable from an empty calendar. -/
theorem claim_C9_backend_failure_absorbed (be beE : Backend) (now : DT)
    (n : String) (upd : Dict) (m : String)
    (hfail : ∀ a b, be.listE a b = Except.error m)
    (hempty : ∀ a b, beE.listE a b = Except.ok [])
    (hn : n ≠ "") :
    (∀ nm sd ed, (get_events be now nm sd ed).1 = [])
    ∧ (delete_event be now (some n) Option.none).1 =
        notFoundDict "deleted_event" (some n) Option.none be.fmt
    ∧ (update_event be now upd (some n) Option.none).1 =
        notFoundDict "updated_event" (some n) Option.none be.fmt
    ∧ delete_event be now (some n) Option.none
        = delete_event beE now (some n) Option.none := by
  have hg : ∀ nm sd ed, (get_events be now nm sd ed).1 = [] := by
    intro nm sd ed
    unfold get_events
    dsimp only
    rw [hfail]
  have hname : truthyName (some n) = true := by simp [truthyName, hn]
  have hgE : ∀ nm sd ed, get_events beE now nm sd ed = get_events be now nm sd ed := by
    intro nm sd ed
    unfold get_events
    dsimp only
    rw [hfail, hempty]
    cases hnm : truthyName nm
    · simp
    · cases nm with
      | none => simp [truthyName] at hnm
      | some s => simp [hnm, filterByName]
  refine ⟨hg, ?_, ?_, ?_⟩
  · unfold delete_event
    simp only [hname]
    rw [if_neg (by simp)]
    rw [hg (some n) (some (mutationWindow now (Option.map ensure_ist_timezone Option.none)).1)
         (some (mutationWindow now (Option.map ensure_ist_timezone Option.none)).2)]
    rfl
  · unfold update_event
    simp only [hname]
    rw [if_neg (by simp)]
    rw [hg (some n) (some (mutationWindow now (Option.map ensure_ist_timezone Option.none)).1)
         (some (mutationWindow now (Option.map ensure_ist_timezone Option.none)).2)]
    rfl
  · unfold delete_event
    simp only [hname]
    rw [hgE]
    rw [hg (some n) (some (mutationWindow now (Option.map ensure_ist_timezone Option.none)).1)
         (some (mutationWindow now (Option.map ensure_ist_timezone Option.none)).2)]
    rfl

/-- Witness for claim C9: with a raising backend, deleting by name reports
not-found, exactly as over an empty calendar. -/
theorem claim_C9_witness :
    (delete_event failBE ⟨0, some istOff⟩ (some "Sync") Option.none).1 =
      notFoundDict "deleted_event" (some "Sync") Option.none failBE.fmt :=
  (claim_C9_backend_failure_absorbed failBE trivBackend ⟨0, some istOff⟩ "Sync" [] "boom"
    (fun _ _ => rfl) (fun _ _ => rfl) (by decide)).2.1

/- ===== merge pipeline lemmas ===== -/

theorem dset_of_get_eq (d : Dict) (k : String) (v : Val) (h : dget d k = some v) :
    dset d k v = d := by
  induction d with
  | nil => simp [dget] at h
  | cons p t ih =>
    rcases p with ⟨pk, pv⟩
    by_cases hp : pk = k
    · subst hp
      simp [dget] at h
      simp [dset, h]
    · simp [dget, hp] at h
      simp [dset, hp, ih h]

theorem dset_ne_nil (d : Dict) (k : String) (v : Val) : dset d k v ≠ [] := by
  cases d with
  | nil => simp [dset]
  | cons p t =>
    rcases p with ⟨pk, pv⟩
    simp only [dset]
    split <;> simp

theorem normTimeField_tz (vd vd2 : Dict) (h : normTimeField vd = Except.ok vd2) :
    dget vd2 "timeZone" = some (Val.str TIMEZONE) ∧ vd2 ≠ [] := by
  unfold normTimeField at h
  cases hd : dget vd "dateTime" with
  | none =>
    rw [hd] at h
    cases h
    exact ⟨dget_dset_self _ _ _, dset_ne_nil _ _ _⟩
  | some v =>
    rw [hd] at h
    cases v <;> simp at h
    rw [← h]
    exact ⟨dget_dset_self _ _ _, dset_ne_nil _ _ _⟩

theorem stampTZ_get_ne (body out : Dict) (k k2 : String)
    (h : stampTZ body k = Except.ok out) (hne : k2 ≠ k) :
    dget out k2 = dget body k2 := by
  unfold stampTZ at h
  cases hd : dget body k with
  | none => rw [hd] at h; cases h; rfl
  | some v =>
    rw [hd] at h
    dsimp only at h
    by_cases ht : v.truthy = true
    · rw [if_pos ht] at h
      cases v <;> simp at h
      rw [← h]
      exact dget_dset_ne body k k2 _ hne
    · rw [if_neg ht] at h
      cases h
      rfl

theorem stampTZ_of_dict (body : Dict) (k : String) (dd : Dict)
    (hd : dget body k = some (Val.dictv dd)) (hne : dd ≠ []) :
    stampTZ body k =
      Except.ok (dset body k (Val.dictv (dset dd "timeZone" (Val.str TIMEZONE)))) := by
  have htr : (Val.dictv dd).truthy = true := by
    cases dd with
    | nil => exact absurd rfl hne
    | cons a b => rfl
  unfold stampTZ
  rw [hd]
  dsimp only
  rw [if_pos htr]

theorem stampTZ_id_of_none (body : Dict) (k : String)
    (hd : dget body k = Option.none) : stampTZ body k = Except.ok body := by
  unfold stampTZ
  rw [hd]

theorem stampTZ_id_of_falsy (body : Dict) (k : String) (v : Val)
    (hd : dget body k = some v) (hf : v.truthy = false) :
    stampTZ body k = Except.ok body := by
  unfold stampTZ
  rw [hd]
  dsimp only
  rw [if_neg (by simp [hf])]

theorem stampTZ_knd (body out : Dict) (k : String)
    (h : stampTZ body k = Except.ok out) (hknd : (dkeys body).Nodup) :
    (dkeys out).Nodup := by
  unfold stampTZ at h
  cases hd : dget body k with
  | none => rw [hd] at h; cases h; exact hknd
  | some v =>
    rw [hd] at h
    dsimp only at h
    by_cases ht : v.truthy = true
    · rw [if_pos ht] at h
      cases v <;> simp at h
      rw [← h]
      exact nodup_dkeys_dset _ _ _ hknd
    · rw [if_neg ht] at h
      cases h
      exact hknd

theorem dget_dropNones_some (body : Dict) (k : String) (v : Val)
    (h : dget body k = some v) (hv : v ≠ Val.vnone) (hknd : (dkeys body).Nodup) :
    dget (dropNones body) k = some v := by
  induction body with
  | nil => simp [dget] at h
  | cons p t ih =>
    rcases p with ⟨pk, pv⟩
    rw [dkeys_cons, List.nodup_cons] at hknd
    unfold dropNones
    rw [List.filter_cons]
    by_cases hp : pk = k
    · subst hp
      simp [dget] at h
      subst h
      have hnv : isVNone pv = false := by
        cases pv <;> simp_all [isVNone]
      simp [hnv, dget]
    · simp [dget, hp] at h
      have := ih h hknd.2
      unfold dropNones at this
      by_cases hn : isVNone pv = true
      · simp [hn]
        exact this
      · simp [eq_false_of_ne_true hn, dget, hp]
        exact this

theorem dget_dropNones_none (body : Dict) (k : String)
    (h : dget body k = Option.none) :
    dget (dropNones body) k = Option.none := by
  induction body with
  | nil => simp [dropNones, dget]
  | cons p t ih =>
    rcases p with ⟨pk, pv⟩
    unfold dropNones
    rw [List.filter_cons]
    by_cases hp : pk = k
    · simp [dget, hp] at h
    · simp [dget, hp] at h
      have := ih h
      unfold dropNones at this
      by_cases hn : isVNone pv = true
      · simp [hn]
        exact this
      · simp [eq_false_of_ne_true hn, dget, hp]
        exact this

theorem dget_dropNones_vnone (body : Dict) (k : String)
    (h : dget body k = some Val.vnone) (hknd : (dkeys body).Nodup) :
    dget (dropNones body) k = Option.none := by
  induction body with
  | nil => simp [dget] at h
  | cons p t ih =>
    rcases p with ⟨pk, pv⟩
    rw [dkeys_cons, List.nodup_cons] at hknd
    unfold dropNones
    rw [List.filter_cons]
    by_cases hp : pk = k
    · subst hp
      simp [dget] at h
      subst h
      simp [isVNone]
      have := dget_dropNones_none t pk (dget_eq_none_of_not_mem t pk hknd.1)
      unfold dropNones at this
      exact this
    · simp [dget, hp] at h
      have := ih h hknd.2
      unfold dropNones at this
      by_cases hn : isVNone pv = true
      · simp [hn]
        exact this
      · simp [eq_false_of_ne_true hn, dget, hp]
        exact this

theorem dropNones_knd (body : Dict) (hknd : (dkeys body).Nodup) :
    (dkeys (dropNones body)).Nodup := by
  have hsub : (dkeys (dropNones body)).Sublist (dkeys body) := by
    unfold dropNones dkeys
    exact (List.filter_sublist _).map _
  exact hsub.nodup hknd

theorem mergePatch_get_not_mem (patch : List (String × Val)) (body out : Dict)
    (k : String) (hok : mergePatch body patch = Except.ok out)
    (hk : k ∉ dkeys patch) :
    dget out k = dget body k := by
  induction patch generalizing body with
  | nil =>
    simp [mergePatch] at hok
    subst hok
    rfl
  | cons p rest ih =>
    rcases p with ⟨pk, pv⟩
    rw [dkeys_cons] at hk
    have hk1 : k ≠ pk := fun hh => hk (hh ▸ List.mem_cons_self _ _)
    have hk2 : k ∉ dkeys rest := fun hh => hk (List.mem_cons_of_mem _ hh)
    unfold mergePatch at hok
    cases pv with
    | vnone =>
      rw [ih _ hok hk2]
      exact dget_dpop_ne _ _ _ hk1
    | dictv vd =>
      dsimp only at hok
      by_cases hif : pk = "start" ∨ pk = "end"
      · rw [if_pos hif] at hok
        cases hnf : normTimeField vd with
        | error m => rw [hnf] at hok; simp at hok
        | ok vd2 =>
          rw [hnf] at hok
          dsimp only at hok
          rw [ih _ hok hk2]
          exact dget_dset_ne _ _ _ _ hk1
      · rw [if_neg hif] at hok
        rw [ih _ hok hk2]
        exact dget_dset_ne _ _ _ _ hk1
    | str sv =>
      rw [ih _ hok hk2]
      exact dget_dset_ne _ _ _ _ hk1
    | intv n =>
      rw [ih _ hok hk2]
      exact dget_dset_ne _ _ _ _ hk1
    | boolv b =>
      rw [ih _ hok hk2]
      exact dget_dset_ne _ _ _ _ hk1
    | dtv w o =>
      rw [ih _ hok hk2]
      exact dget_dset_ne _ _ _ _ hk1
    | listv l =>
      rw [ih _ hok hk2]
      exact dget_dset_ne _ _ _ _ hk1

theorem mergePatch_knd (patch : List (String × Val)) (body out : Dict)
    (hok : mergePatch body patch = Except.ok out) (h : (dkeys body).Nodup) :
    (dkeys out).Nodup := by
  induction patch generalizing body with
  | nil =>
    simp [mergePatch] at hok
    subst hok
    exact h
  | cons p rest ih =>
    rcases p with ⟨pk, pv⟩
    unfold mergePatch at hok
    cases pv with
    | vnone => exact ih _ hok (nodup_dkeys_dpop _ _ h)
    | dictv vd =>
      dsimp only at hok
      by_cases hif : pk = "start" ∨ pk = "end"
      · rw [if_pos hif] at hok
        cases hnf : normTimeField vd with
        | error m => rw [hnf] at hok; simp at hok
        | ok vd2 =>
          rw [hnf] at hok
          dsimp only at hok
          exact ih _ hok (nodup_dkeys_dset _ _ _ h)
      · rw [if_neg hif] at hok
        exact ih _ hok (nodup_dkeys_dset _ _ _ h)
    | str sv => exact ih _ hok (nodup_dkeys_dset _ _ _ h)
    | intv n => exact ih _ hok (nodup_dkeys_dset _ _ _ h)
    | boolv b => exact ih _ hok (nodup_dkeys_dset _ _ _ h)
    | dtv w o => exact ih _ hok (nodup_dkeys_dset _ _ _ h)
    | listv l => exact ih _ hok (nodup_dkeys_dset _ _ _ h)

theorem mergePatch_get_vnone (patch : List (String × Val)) (body out : Dict)
    (k : String) (hok : mergePatch body patch = Except.ok out)
    (hnd : (dkeys patch).Nodup) (hknd : (dkeys body).Nodup)
    (hmem : (k, Val.vnone) ∈ patch) :
    dget out k = Option.none := by
  induction patch generalizing body with
  | nil => simp at hmem
  | cons p rest ih =>
    rcases p with ⟨pk, pv⟩
    rw [dkeys_cons, List.nodup_cons] at hnd
    unfold mergePatch at hok
    rcases List.mem_cons.1 hmem with heq | hmem2
    · cases heq
      rw [mergePatch_get_not_mem rest _ out k hok hnd.1]
      exact dget_dpop_self body k hknd
    · have hkmem : k ∈ dkeys rest := List.mem_map.2 ⟨(k, Val.vnone), hmem2, rfl⟩
      have hk1 : ¬ pk = k := fun hh => hnd.1 (hh ▸ hkmem)
      cases pv with
      | vnone => exact ih _ hok hnd.2 (nodup_dkeys_dpop _ _ hknd) hmem2
      | dictv vd =>
        dsimp only at hok
        by_cases hif : pk = "start" ∨ pk = "end"
        · rw [if_pos hif] at hok
          cases hnf : normTimeField vd with
          | error m => rw [hnf] at hok; simp at hok
          | ok vd2 =>
            rw [hnf] at hok
            dsimp only at hok
            exact ih _ hok hnd.2 (nodup_dkeys_dset _ _ _ hknd) hmem2
        · rw [if_neg hif] at hok
          exact ih _ hok hnd.2 (nodup_dkeys_dset _ _ _ hknd) hmem2
      | str sv => exact ih _ hok hnd.2 (nodup_dkeys_dset _ _ _ hknd) hmem2
      | intv n => exact ih _ hok hnd.2 (nodup_dkeys_dset _ _ _ hknd) hmem2
      | boolv b => exact ih _ hok hnd.2 (nodup_dkeys_dset _ _ _ hknd) hmem2
      | dtv w o => exact ih _ hok hnd.2 (nodup_dkeys_dset _ _ _ hknd) hmem2
      | listv l => exact ih _ hok hnd.2 (nodup_dkeys_dset _ _ _ hknd) hmem2

theorem mergePatch_get_set (patch : List (String × Val)) (body out : Dict)
    (k : String) (v : Val) (hok : mergePatch body patch = Except.ok out)
    (hnd : (dkeys patch).Nodup) (hmem : (k, v) ∈ patch)
    (hkse : ¬(k = "start" ∨ k = "end")) (hnn : v ≠ Val.vnone) :
    dget out k = some v := by
  induction patch generalizing body with
  | nil => simp at hmem
  | cons p rest ih =>
    rcases p with ⟨pk, pv⟩
    rw [dkeys_cons, List.nodup_cons] at hnd
    unfold mergePatch at hok
    rcases List.mem_cons.1 hmem with heq | hmem2
    · cases heq
      cases v with
      | vnone => exact absurd rfl hnn
      | dictv vd =>
        dsimp only at hok
        rw [if_neg hkse] at hok
        rw [mergePatch_get_not_mem rest _ out k hok hnd.1]
        exact dget_dset_self _ _ _
      | str sv =>
        rw [mergePatch_get_not_mem rest _ out k hok hnd.1]
        exact dget_dset_self _ _ _
      | intv n =>
        rw [mergePatch_get_not_mem rest _ out k hok hnd.1]
        exact dget_dset_self _ _ _
      | boolv b =>
        rw [mergePatch_get_not_mem rest _ out k hok hnd.1]
        exact dget_dset_self _ _ _
      | dtv w o =>
        rw [mergePatch_get_not_mem rest _ out k hok hnd.1]
        exact dget_dset_self _ _ _
      | listv l =>
        rw [mergePatch_get_not_mem rest _ out k hok hnd.1]
        exact dget_dset_self _ _ _
    · cases pv with
      | vnone => exact ih _ hok hnd.2 hmem2
      | dictv vd =>
        dsimp only at hok
        by_cases hif : pk = "start" ∨ pk = "end"
        · rw [if_pos hif] at hok
          cases hnf : normTimeField vd with
          | error m => rw [hnf] at hok; simp at hok
          | ok vd2 =>
            rw [hnf] at hok
            dsimp only at hok
            exact ih _ hok hnd.2 hmem2
        · rw [if_neg hif] at hok
          exact ih _ hok hnd.2 hmem2
      | str sv => exact ih _ hok hnd.2 hmem2
      | intv n => exact ih _ hok hnd.2 hmem2
      | boolv b => exact ih _ hok hnd.2 hmem2
      | dtv w o => exact ih _ hok hnd.2 hmem2
      | listv l => exact ih _ hok hnd.2 hmem2

theorem mergePatch_get_tf (patch : List (String × Val)) (body out : Dict)
    (k : String) (vd vd2 : Dict) (hok : mergePatch body patch = Except.ok out)
    (hnd : (dkeys patch).Nodup) (hmem : (k, Val.dictv vd) ∈ patch)
    (hse : k = "start" ∨ k = "end")
    (hnf : normTimeField vd = Except.ok vd2) :
    dget out k = some (Val.dictv vd2) := by
  induction patch generalizing body with
  | nil => simp at hmem
  | cons p rest ih =>
    rcases p with ⟨pk, pv⟩
    rw [dkeys_cons, List.nodup_cons] at hnd
    unfold mergePatch at hok
    rcases List.mem_cons.1 hmem with heq | hmem2
    · cases heq
      dsimp only at hok
      rw [if_pos hse, hnf] at hok
      dsimp only at hok
      rw [mergePatch_get_not_mem rest _ out k hok hnd.1]
      exact dget_dset_self _ _ _
    · cases pv with
      | vnone => exact ih _ hok hnd.2 hmem2
      | dictv vd3 =>
        dsimp only at hok
        by_cases hif : pk = "start" ∨ pk = "end"
        · rw [if_pos hif] at hok
          cases hnf3 : normTimeField vd3 with
          | error m => rw [hnf3] at hok; simp at hok
          | ok vd4 =>
            rw [hnf3] at hok
            dsimp only at hok
            exact ih _ hok hnd.2 hmem2
        · rw [if_neg hif] at hok
          exact ih _ hok hnd.2 hmem2
      | str sv => exact ih _ hok hnd.2 hmem2
      | intv n => exact ih _ hok hnd.2 hmem2
      | boolv b => exact ih _ hok hnd.2 hmem2
      | dtv w o => exact ih _ hok hnd.2 hmem2
      | listv l => exact ih _ hok hnd.2 hmem2

theorem buildUpdateBody_parts (event patch out : Dict)
    (hok : buildUpdateBody event patch = Except.ok out) :
    ∃ merged s1 s2,
      mergePatch (updateBase event) patch = Except.ok merged ∧
      stampTZ merged "start" = Except.ok s1 ∧
      stampTZ s1 "end" = Except.ok s2 ∧
      out = restoreField event (restoreField event (dropNones s2) "start") "end" := by
  unfold buildUpdateBody at hok
  cases h1 : mergePatch (updateBase event) patch with
  | error m => rw [h1] at hok; simp at hok
  | ok merged =>
    rw [h1] at hok
    dsimp only at hok
    cases h2 : stampTZ merged "start" with
    | error m => rw [h2] at hok; simp at hok
    | ok s1 =>
      rw [h2] at hok
      dsimp only at hok
      cases h3 : stampTZ s1 "end" with
      | error m => rw [h3] at hok; simp at hok
      | ok s2 =>
        rw [h3] at hok
        simp at hok
        exact ⟨merged, s1, s2, rfl, h2, h3, hok.symm⟩

theorem updateBase_knd (event : Dict) : (dkeys (updateBase event)).Nodup := by
  show (["summary", "start", "end", "description", "location"] : List String).Nodup
  decide

theorem restoreField_get_ne (event body : Dict) (k k2 : String) (hne : k2 ≠ k) :
    dget (restoreField event body k) k2 = dget body k2 := by
  unfold restoreField
  cases hd : dget body k with
  | none => exact dget_dset_ne _ _ _ _ hne
  | some v =>
    dsimp only
    by_cases ht : v.truthy = true
    · rw [if_pos ht]
    · rw [if_neg ht]
      exact dget_dset_ne _ _ _ _ hne

theorem restoreField_id_of_truthy (event body : Dict) (k : String) (v : Val)
    (hd : dget body k = some v) (ht : v.truthy = true) :
    restoreField event body k = body := by
  unfold restoreField
  rw [hd]
  dsimp only
  rw [if_pos ht]

theorem restoreField_of_none (event body : Dict) (k : String)
    (hd : dget body k = Option.none) :
    restoreField event body k = dset body k ((dget event k).getD (Val.dictv [])) := by
  unfold restoreField
  rw [hd]

/-- Overwrite clause: a patch key outside start/end with a non-None value
lands verbatim in the outgoing body. -/
theorem bupd_overwrite (event patch out : Dict) (k : String) (v : Val)
    (hok : buildUpdateBody event patch = Except.ok out)
    (hnd : (dkeys patch).Nodup)
    (hmem : (k, v) ∈ patch) (hkse : ¬(k = "start" ∨ k = "end"))
    (hnn : v ≠ Val.vnone) :
    dget out k = some v := by
  obtain ⟨merged, s1, s2, h1, h2, h3, hout⟩ := buildUpdateBody_parts event patch out hok
  have hks : k ≠ "start" := fun hh => hkse (Or.inl hh)
  have hke : k ≠ "end" := fun hh => hkse (Or.inr hh)
  have hm : dget merged k = some v :=
    mergePatch_get_set patch _ _ k v h1 hnd hmem hkse hnn
  have hknd1 : (dkeys merged).Nodup := mergePatch_knd patch _ _ h1 (updateBase_knd event)
  have hknd2 : (dkeys s1).Nodup := stampTZ_knd _ _ _ h2 hknd1
  have hknd3 : (dkeys s2).Nodup := stampTZ_knd _ _ _ h3 hknd2
  have hs2 : dget s2 k = some v := by
    rw [stampTZ_get_ne _ _ _ _ h3 hke, stampTZ_get_ne _ _ _ _ h2 hks]
    exact hm
  have hdn : dget (dropNones s2) k = some v := dget_dropNones_some _ _ _ hs2 hnn hknd3
  rw [hout, restoreField_get_ne _ _ _ _ hke, restoreField_get_ne _ _ _ _ hks]
  exact hdn

/-- Removal clause for keys outside start/end: a patch key with a None
value is absent from the outgoing body. -/
theorem bupd_remove (event patch out : Dict) (k : String)
    (hok : buildUpdateBody event patch = Except.ok out)
    (hnd : (dkeys patch).Nodup)
    (hmem : (k, Val.vnone) ∈ patch) (hkse : ¬(k = "start" ∨ k = "end")) :
    dget out k = Option.none := by
  obtain ⟨merged, s1, s2, h1, h2, h3, hout⟩ := buildUpdateBody_parts event patch out hok
  have hks : k ≠ "start" := fun hh => hkse (Or.inl hh)
  have hke : k ≠ "end" := fun hh => hkse (Or.inr hh)
  have hm : dget merged k = Option.none :=
    mergePatch_get_vnone patch _ _ k h1 hnd (updateBase_knd event) hmem
  have hs2 : dget s2 k = Option.none := by
    rw [stampTZ_get_ne _ _ _ _ h3 hke, stampTZ_get_ne _ _ _ _ h2 hks]
    exact hm
  have hdn : dget (dropNones s2) k = Option.none := dget_dropNones_none _ _ hs2
  rw [hout, restoreField_get_ne _ _ _ _ hke, restoreField_get_ne _ _ _ _ hks]
  exact hdn

/-- Preservation clause for the scalar fields: summary, description and
location absent from the patch keep their base value, the existing
event's field with the get default. -/
theorem bupd_preserve_scalar (event patch out : Dict) (k : String)
    (hok : buildUpdateBody event patch = Except.ok out)
    (hsc : k = "summary" ∨ k = "description" ∨ k = "location")
    (hk : k ∉ dkeys patch)
    (hval : (dget event k).getD (Val.str "") ≠ Val.vnone) :
    dget out k = some ((dget event k).getD (Val.str "")) := by
  obtain ⟨merged, s1, s2, h1, h2, h3, hout⟩ := buildUpdateBody_parts event patch out hok
  have hks : k ≠ "start" := by rcases hsc with h | h | h <;> subst h <;> decide
  have hke : k ≠ "end" := by rcases hsc with h | h | h <;> subst h <;> decide
  have hbase : dget (updateBase event) k = some ((dget event k).getD (Val.str "")) := by
    rcases hsc with h | h | h <;> subst h <;> simp [updateBase, dget]
  have hm : dget merged k = some ((dget event k).getD (Val.str "")) := by
    rw [mergePatch_get_not_mem patch _ _ k h1 hk]
    exact hbase
  have hknd1 : (dkeys merged).Nodup := mergePatch_knd patch _ _ h1 (updateBase_knd event)
  have hknd3 : (dkeys s2).Nodup :=
    stampTZ_knd _ _ _ h3 (stampTZ_knd _ _ _ h2 hknd1)
  have hs2 : dget s2 k = some ((dget event k).getD (Val.str "")) := by
    rw [stampTZ_get_ne _ _ _ _ h3 hke, stampTZ_get_ne _ _ _ _ h2 hks]
    exact hm
  have hdn := dget_dropNones_some _ _ _ hs2 hval hknd3
  rw [hout, restoreField_get_ne _ _ _ _ hke, restoreField_get_ne _ _ _ _ hks]
  exact hdn

/-- After both stamping steps, a start/end key holding a non-empty mapping
in the merged body holds that mapping with timeZone force-set. -/
theorem stamps_at_key (merged s1 s2 : Dict) (k : String) (X : Dict)
    (h2 : stampTZ merged "start" = Except.ok s1)
    (h3 : stampTZ s1 "end" = Except.ok s2)
    (hse : k = "start" ∨ k = "end")
    (hm : dget merged k = some (Val.dictv X)) (hX : X ≠ []) :
    dget s2 k = some (Val.dictv (dset X "timeZone" (Val.str TIMEZONE))) := by
  rcases hse with h | h
  · subst h
    have h2' := stampTZ_of_dict merged "start" X hm hX
    rw [h2'] at h2
    injection h2 with h2i
    rw [stampTZ_get_ne _ _ _ _ h3 (by decide : ("start" : String) ≠ "end"), ← h2i]
    exact dget_dset_self _ _ _
  · subst h
    have hs1e : dget s1 "end" = some (Val.dictv X) := by
      rw [stampTZ_get_ne _ _ _ _ h2 (by decide : ("end" : String) ≠ "start")]
      exact hm
    have h3' := stampTZ_of_dict s1 "end" X hs1e hX
    rw [h3'] at h3
    injection h3 with h3i
    rw [← h3i]
    exact dget_dset_self _ _ _

/-- The two restoration steps keep a truthy start/end value unchanged. -/
theorem restores_keep (event dn : Dict) (k : String) (x : Val)
    (hse : k = "start" ∨ k = "end") (hdn : dget dn k = some x)
    (htr : x.truthy = true) :
    dget (restoreField event (restoreField event dn "start") "end") k = some x := by
  rcases hse with h | h
  · subst h
    rw [restoreField_get_ne _ _ _ _ (by decide : ("start" : String) ≠ "end"),
        restoreField_id_of_truthy _ _ _ _ hdn htr]
    exact hdn
  · subst h
    have hr1 : dget (restoreField event dn "start") "end" = some x := by
      rw [restoreField_get_ne _ _ _ _ (by decide : ("end" : String) ≠ "start")]
      exact hdn
    rw [restoreField_id_of_truthy _ _ _ _ hr1 htr]
    exact hr1

/-- Overlay clause: a mapping-shaped start/end value in the patch lands in
the outgoing body renormalized — dateTime converted to IST and timeZone
force-set to the TIMEZONE constant. -/
theorem bupd_overlay_tf (event patch out : Dict) (k : String) (vd vd2 : Dict)
    (hok : buildUpdateBody event patch = Except.ok out)
    (hnd : (dkeys patch).Nodup)
    (hse : k = "start" ∨ k = "end")
    (hmem : (k, Val.dictv vd) ∈ patch)
    (hnf : normTimeField vd = Except.ok vd2) :
    dget out k = some (Val.dictv vd2) := by
  obtain ⟨merged, s1, s2, h1, h2, h3, hout⟩ := buildUpdateBody_parts event patch out hok
  obtain ⟨htz, hne⟩ := normTimeField_tz vd vd2 hnf
  have hm : dget merged k = some (Val.dictv vd2) :=
    mergePatch_get_tf patch _ _ k vd vd2 h1 hnd hmem hse hnf
  have hs2 : dget s2 k = some (Val.dictv vd2) := by
    have := stamps_at_key merged s1 s2 k vd2 h2 h3 hse hm hne
    rwa [dset_of_get_eq _ _ _ htz] at this
  have hknd3 : (dkeys s2).Nodup :=
    stampTZ_knd _ _ _ h3 (stampTZ_knd _ _ _ h2
      (mergePatch_knd patch _ _ h1 (updateBase_knd event)))
  have hdn : dget (dropNones s2) k = some (Val.dictv vd2) :=
    dget_dropNones_some _ _ _ hs2 (by simp) hknd3
  have htr : (Val.dictv vd2).truthy = true := by
    cases vd2 with
    | nil => exact absurd rfl hne
    | cons a b => rfl
  rw [hout]
  exact restores_keep event _ k _ hse hdn htr

/-- Preservation clause for start/end absent from the patch: the existing
event's non-empty mapping is kept, except that its timeZone is force-set
to the TIMEZONE constant. -/
theorem bupd_preserve_tf (event patch out : Dict) (k : String) (ss : Dict)
    (hok : buildUpdateBody event patch = Except.ok out)
    (hse : k = "start" ∨ k = "end")
    (hk : k ∉ dkeys patch)
    (hev : dget event k = some (Val.dictv ss)) (hss : ss ≠ []) :
    dget out k = some (Val.dictv (dset ss "timeZone" (Val.str TIMEZONE))) := by
  obtain ⟨merged, s1, s2, h1, h2, h3, hout⟩ := buildUpdateBody_parts event patch out hok
  have hbase : dget (updateBase event) k = some (Val.dictv ss) := by
    rcases hse with h | h <;> subst h <;> simp [updateBase, dget, hev]
  have hm : dget merged k = some (Val.dictv ss) := by
    rw [mergePatch_get_not_mem patch _ _ k h1 hk]
    exact hbase
  have hs2 := stamps_at_key merged s1 s2 k ss h2 h3 hse hm hss
  have hknd3 : (dkeys s2).Nodup :=
    stampTZ_knd _ _ _ h3 (stampTZ_knd _ _ _ h2
      (mergePatch_knd patch _ _ h1 (updateBase_knd event)))
  have hdn := dget_dropNones_some _ _ _ hs2 (by simp) hknd3
  have htr : (Val.dictv (dset ss "timeZone" (Val.str TIMEZONE))).truthy = true := by
    have := dset_ne_nil ss "timeZone" (Val.str TIMEZONE)
    cases hvv : dset ss "timeZone" (Val.str TIMEZONE) with
    | nil => exact absurd hvv this
    | cons a b => rfl
  rw [hout]
  exact restores_keep event _ k _ hse hdn htr

/-- Restoration clause: a start/end key removed by a None patch value is
re-populated from the existing event verbatim. -/
theorem bupd_restore_tf (event patch out : Dict) (k : String)
    (hok : buildUpdateBody event patch = Except.ok out)
    (hnd : (dkeys patch).Nodup)
    (hse : k = "start" ∨ k = "end")
    (hmem : (k, Val.vnone) ∈ patch) :
    dget out k = some ((dget event k).getD (Val.dictv [])) := by
  obtain ⟨merged, s1, s2, h1, h2, h3, hout⟩ := buildUpdateBody_parts event patch out hok
  have hm : dget merged k = Option.none :=
    mergePatch_get_vnone patch _ _ k h1 hnd (updateBase_knd event) hmem
  have hs2 : dget s2 k = Option.none := by
    rcases hse with h | h
    · subst h
      have h2' := stampTZ_id_of_none merged "start" hm
      rw [h2'] at h2
      injection h2 with h2i
      rw [stampTZ_get_ne _ _ _ _ h3 (by decide : ("start" : String) ≠ "end"), ← h2i]
      exact hm
    · subst h
      have hs1 : dget s1 "end" = Option.none := by
        rw [stampTZ_get_ne _ _ _ _ h2 (by decide : ("end" : String) ≠ "start")]
        exact hm
      have h3' := stampTZ_id_of_none s1 "end" hs1
      rw [h3'] at h3
      injection h3 with h3i
      rw [← h3i]
      exact hs1
  have hdn : dget (dropNones s2) k = Option.none := dget_dropNones_none _ _ hs2
  rw [hout]
  rcases hse with h | h
  · subst h
    rw [restoreField_get_ne _ _ _ _ (by decide : ("start" : String) ≠ "end"),
        restoreField_of_none _ _ _ hdn]
    exact dget_dset_self _ _ _
  · subst h
    have hr1 : dget (restoreField event (dropNones s2) "start") "end" = Option.none := by
      rw [restoreField_get_ne _ _ _ _ (by decide : ("end" : String) ≠ "start")]
      exact hdn
    rw [restoreField_of_none _ _ _ hr1]
    exact dget_dset_self _ _ _

/- ===== create_event lemmas ===== -/

/-- create_event issues exactly one insert, carrying the prepared body,
unless body preparation raised. -/
theorem create_event_calls (be : Backend) (details : Dict) :
    (create_event be details).2 =
      (match createPrep details with
       | Except.error _ => []
       | Except.ok body => [BCall.insert body]) := by
  unfold create_event
  cases createPrep details with
  | error m => rfl
  | ok body =>
    dsimp only
    cases be.insertE body with
    | error m => rfl
    | ok created =>
      dsimp only
      cases dget created "id" with
      | none => rfl
      | some v => cases v <;> rfl

/-- The insert body create_event sends carries timeZone = TIMEZONE on
mapping-shaped start and end, whatever the request asked for. -/
theorem create_insert_tz (be : Backend) (details s e b : Dict)
    (hs : dget details "start" = some (Val.dictv s))
    (he : dget details "end" = some (Val.dictv e))
    (hb : (create_event be details).2 = [BCall.insert b]) :
    (∃ s2, dget b "start" = some (Val.dictv s2) ∧
      dget s2 "timeZone" = some (Val.str TIMEZONE))
    ∧ (∃ e2, dget b "end" = some (Val.dictv e2) ∧
      dget e2 "timeZone" = some (Val.str TIMEZONE)) := by
  rw [create_event_calls] at hb
  cases hp : createPrep details with
  | error m => rw [hp] at hb; simp at hb
  | ok body =>
    rw [hp] at hb
    simp at hb
    subst hb
    unfold createPrep at hp
    rw [hs] at hp
    dsimp only at hp
    cases hn1 : normTimeField s with
    | error m => rw [hn1] at hp; simp at hp
    | ok s2 =>
      rw [hn1] at hp
      dsimp only at hp
      rw [dget_dset_ne details "start" "end" _ (by decide), he] at hp
      dsimp only at hp
      cases hn2 : normTimeField e with
      | error m => rw [hn2] at hp; simp at hp
      | ok e2 =>
        rw [hn2] at hp
        simp at hp
        subst hp
        constructor
        · refine ⟨s2, ?_, (normTimeField_tz s s2 hn1).1⟩
          rw [dget_dset_ne _ "end" "start" _ (by decide)]
          exact dget_dset_self _ _ _
        · exact ⟨e2, dget_dset_self _ _ _, (normTimeField_tz e e2 hn2).1⟩

/- ===== claim C2 ===== -/

/-- Counterexample to claim C2: a French request resolves the Europe/Paris
locale timezone, yet the insert body sent to the backend carries
timeZone Asia/Kolkata on start and end. -/
theorem claim_C2_counterexample :
    (execute_tool frEnv "create_event" frParams).2 = [BCall.insert frBody]
    ∧ (get_language_config (detectedOf frEnv frParams)).timezone = "Europe/Paris"
    ∧ dget frBody "start" = some (Val.dictv
        [("dateTime", Val.dtv 0 (some istOff)), ("timeZone", Val.str "Asia/Kolkata")])
    ∧ dget frBody "end" = some (Val.dictv
        [("dateTime", Val.dtv 3600000000 (some istOff)), ("timeZone", Val.str "Asia/Kolkata")])
    ∧ ¬ ("Asia/Kolkata" = "Europe/Paris") :=
  ⟨rfl, rfl, rfl, rfl, by decide⟩

/-- Claim C2 as amended: before any calendar write the timeZone of
mapping-shaped start/end is force-set to the module constant TIMEZONE =
Asia/Kolkata (and an overlaid dateTime converted to IST), regardless of
the locale resolved for the request; it matches the resolved locale's
timezone only when that timezone is Asia/Kolkata. -/
theorem claim_C2_amended_tz (be : Backend) (details s e b : Dict)
    (event patch out vd vd2 : Dict) (k : String)
    (hs : dget details "start" = some (Val.dictv s))
    (he : dget details "end" = some (Val.dictv e))
    (hb : (create_event be details).2 = [BCall.insert b])
    (hok : buildUpdateBody event patch = Except.ok out)
    (hnd : (dkeys patch).Nodup)
    (hse : k = "start" ∨ k = "end")
    (hmem : (k, Val.dictv vd) ∈ patch)
    (hnf : normTimeField vd = Except.ok vd2) :
    ((∃ s2, dget b "start" = some (Val.dictv s2) ∧
        dget s2 "timeZone" = some (Val.str TIMEZONE))
      ∧ (∃ e2, dget b "end" = some (Val.dictv e2) ∧
        dget e2 "timeZone" = some (Val.str TIMEZONE)))
    ∧ (dget out k = some (Val.dictv vd2) ∧
        dget vd2 "timeZone" = some (Val.str TIMEZONE)) :=
  ⟨create_insert_tz be details s e b hs he hb,
   bupd_overlay_tf event patch out k vd vd2 hok hnd hse hmem hnf,
   (normTimeField_tz vd vd2 hnf).1⟩

/-- Witness for the amended claim C2 at a concrete create request and a
concrete start-overlaying update patch. -/
theorem claim_C2_witness :
    ((∃ s2, dget frBody "start" = some (Val.dictv s2) ∧
        dget s2 "timeZone" = some (Val.str TIMEZONE))
      ∧ (∃ e2, dget frBody "end" = some (Val.dictv e2) ∧
        dget e2 "timeZone" = some (Val.str TIMEZONE)))
    ∧ (dget c2Out "start" = some (Val.dictv
        [("dateTime", Val.dtv 0 (some 330)), ("timeZone", Val.str "Asia/Kolkata")]) ∧
        dget [("dateTime", Val.dtv 0 (some 330)), ("timeZone", Val.str "Asia/Kolkata")]
          "timeZone" = some (Val.str TIMEZONE)) :=
  claim_C2_amended_tz trivBackend frParams
    [("dateTime", Val.dtv 0 Option.none)] [("dateTime", Val.dtv 3600000000 Option.none)]
    frBody c3Event c2Patch c2Out
    [("dateTime", Val.dtv 0 Option.none)]
    [("dateTime", Val.dtv 0 (some 330)), ("timeZone", Val.str "Asia/Kolkata")]
    "start" rfl rfl rfl rfl (by decide) (Or.inl rfl) (List.mem_singleton.2 rfl) rfl

/- ===== claim C3 ===== -/

/-- Counterexample to claim C3: over an existing event whose start carries
the Europe/Paris timezone tag, (a) a patch deleting start (None) does not
remove it from the outgoing body — it is re-populated — and (b) a patch
touching only summary perturbs the untouched start by re-stamping its
timeZone to Asia/Kolkata. -/
theorem claim_C3_counterexample :
    buildUpdateBody c3Event [("summary", Val.str "B"), ("start", Val.vnone)] =
      Except.ok c3Out1
    ∧ dget c3Out1 "start" = some (Val.dictv
        [("dateTime", Val.dtv 1000 (some 330)), ("timeZone", Val.str "Europe/Paris")])
    ∧ buildUpdateBody c3Event [("summary", Val.str "B")] = Except.ok c3Out2
    ∧ dget c3Event "start" = some (Val.dictv
        [("dateTime", Val.dtv 1000 (some 330)), ("timeZone", Val.str "Europe/Paris")])
    ∧ dget c3Out2 "start" = some (Val.dictv
        [("dateTime", Val.dtv 1000 (some 330)), ("timeZone", Val.str "Asia/Kolkata")])
    ∧ ¬ (Val.str "Asia/Kolkata" = Val.str "Europe/Paris") :=
  ⟨rfl, rfl, rfl, rfl, rfl, by simp⟩

/-- Claim C3 as amended: the outgoing body starts from the existing
event's five fields; a patch key with a non-None value overwrites
(start/end renormalized); a patch key with a None value removes the field
for summary/description/location but start/end are re-populated from the
existing event verbatim; scalar fields absent from the patch keep their
base value, while start/end absent from the patch keep their dateTime but
have timeZone force-set to Asia/Kolkata. -/
theorem claim_C3_amended_merge (event patch out : Dict)
    (hok : buildUpdateBody event patch = Except.ok out)
    (hnd : (dkeys patch).Nodup) :
    (∀ k v, (k, v) ∈ patch → ¬(k = "start" ∨ k = "end") → v ≠ Val.vnone →
      dget out k = some v)
    ∧ (∀ k, (k, Val.vnone) ∈ patch → ¬(k = "start" ∨ k = "end") →
      dget out k = Option.none)
    ∧ (∀ k, (k = "summary" ∨ k = "description" ∨ k = "location") →
      k ∉ dkeys patch → (dget event k).getD (Val.str "") ≠ Val.vnone →
      dget out k = some ((dget event k).getD (Val.str "")))
    ∧ (∀ k vd vd2, (k = "start" ∨ k = "end") → (k, Val.dictv vd) ∈ patch →
      normTimeField vd = Except.ok vd2 → dget out k = some (Val.dictv vd2))
    ∧ (∀ k ss, (k = "start" ∨ k = "end") → k ∉ dkeys patch →
      dget event k = some (Val.dictv ss) → ss ≠ [] →
      dget out k = some (Val.dictv (dset ss "timeZone" (Val.str TIMEZONE))))
    ∧ (∀ k, (k = "start" ∨ k = "end") → (k, Val.vnone) ∈ patch →
      dget out k = some ((dget event k).getD (Val.dictv []))) :=
  ⟨fun k v hm hks hnn => bupd_overwrite event patch out k v hok hnd hm hks hnn,
   fun k hm hks => bupd_remove event patch out k hok hnd hm hks,
   fun k hsc hk hval => bupd_preserve_scalar event patch out k hok hsc hk hval,
   fun k vd vd2 hse hm hnf => bupd_overlay_tf event patch out k vd vd2 hok hnd hse hm hnf,
   fun k ss hse hk hev hss => bupd_preserve_tf event patch out k ss hok hse hk hev hss,
   fun k hse hm => bupd_restore_tf event patch out k hok hnd hse hm⟩

/-- Witness for the amended claim C3 at the round-trip example: patching
only summary keeps location and keeps start up to the forced timezone. -/
theorem claim_C3_witness :
    dget c3Out2 "summary" = some (Val.str "B")
    ∧ dget c3Out2 "location" = some (Val.str "X")
    ∧ dget c3Out2 "start" = some (Val.dictv
        [("dateTime", Val.dtv 1000 (some 330)), ("timeZone", Val.str "Asia/Kolkata")]) := by
  have h := claim_C3_amended_merge c3Event [("summary", Val.str "B")] c3Out2 rfl (by decide)
  refine ⟨?_, ?_, ?_⟩
  · exact h.1 "summary" (Val.str "B") (List.mem_singleton.2 rfl) (by decide) (by simp)
  · exact h.2.2.1 "location" (Or.inr (Or.inr rfl)) (by decide) (by simp [c3Event, dget])
  · exact h.2.2.2.2.1 "start"
      [("dateTime", Val.dtv 1000 (some 330)), ("timeZone", Val.str "Europe/Paris")]
      (Or.inl rfl) (by decide) rfl (by simp)

/- ===== router result-shape lemmas ===== -/

theorem detect_language_supported (det : String → Option String) (t : String) :
    supportedCodes.contains (detect_language det t) = true := by
  unfold detect_language
  by_cases ht : t = ""
  · simp [ht]; decide
  · simp [ht]
    cases hdt : det t with
    | none => decide
    | some c =>
      by_cases hcs : c ∈ supportedCodes
      · simp [hcs]
      · simp [hcs]; decide

theorem resOK_inj (det : String) (cfg : LangConfig) (x d : Dict)
    (h : Val.dictv (injLang det cfg x) = Val.dictv d) :
    dget d "language" = some (Val.dictv
      [("code", Val.str det), ("name", Val.str cfg.name)]) := by
  cases h
  exact dget_dset_self _ _ _

theorem resOK_err (msg : String) (d : Dict)
    (h : Val.dictv [("error", Val.str msg)] = Val.dictv d) :
    (∃ m, dget d "error" = some m) ∧ dget d "language" = Option.none := by
  cases h
  exact ⟨⟨Val.str msg, rfl⟩, rfl⟩

theorem resOK_dtresp (env : Env) (det : String) (cfg : LangConfig)
    (tzname : String) (flag : Bool) (d : Dict)
    (h : Val.dictv (dtResponse env det cfg tzname flag) = Val.dictv d) :
    dget d "language" = some (Val.dictv
      [("code", Val.str det), ("name", Val.str cfg.name)]) := by
  cases h
  rfl

theorem resOK_wrap (det : String) (cfg : LangConfig) (v : Val) (d : Dict)
    (h : Val.dictv [("events", v),
          ("language", Val.dictv [("code", Val.str det), ("name", Val.str cfg.name)])] =
        Val.dictv d) :
    dget d "language" = some (Val.dictv
      [("code", Val.str det), ("name", Val.str cfg.name)]) := by
  cases h
  rfl

/- ===== claim C1 ===== -/

/-- Counterexample to claim C1: the unknown-tool result is mapping-shaped
yet carries no language object. -/
theorem claim_C1_counterexample :
    (execute_tool trivEnv "bogus" []).1 =
      Val.dictv [("error", Val.str ("Unknown tool: " ++ "bogus"))]
    ∧ dget [("error", Val.str ("Unknown tool: " ++ "bogus"))] "language" = Option.none :=
  ⟨rfl, rfl⟩

/-- Claim C1 as amended: the detected code is always drawn from the
supported-locale table, and every mapping-shaped result of execute_tool
either carries the language object (code and name of the resolved
profile) injected by the router, or is an error-shaped result from one of
the router's error paths, which carry no language. -/
theorem claim_C1_amended_language (env : Env) (tool : String) (params : Dict) :
    supportedCodes.contains (detectedOf env params) = true
    ∧ ∀ d, (execute_tool env tool params).1 = Val.dictv d →
      (dget d "language" = some (Val.dictv
          [("code", Val.str (detectedOf env params)),
           ("name", Val.str (get_language_config (detectedOf env params)).name)]))
      ∨ ((∃ m, dget d "error" = some m) ∧ dget d "language" = Option.none) := by
  constructor
  · unfold detectedOf
    cases hq : dget params "query" with
    | none => show supportedCodes.contains "en" = true; decide
    | some v =>
      cases v with
      | str s => exact detect_language_supported env.det s
      | intv n => show supportedCodes.contains "en" = true; decide
      | boolv b => show supportedCodes.contains "en" = true; decide
      | vnone => show supportedCodes.contains "en" = true; decide
      | dtv w o => show supportedCodes.contains "en" = true; decide
      | listv l => show supportedCodes.contains "en" = true; decide
      | dictv dd => show supportedCodes.contains "en" = true; decide
  · intro d h
    unfold execute_tool at h
    cases hni : env.noteInit with
    | error m =>
      rw [hni] at h
      dsimp only at h
      exact Or.inr (resOK_err _ _ h)
    | ok u =>
      rw [hni] at h
      dsimp only at h
      unfold calPost at h
      by_cases t1 : tool = "add_note"
      · rw [if_pos t1] at h
        try dsimp only at h
        exact Or.inl (resOK_inj _ _ _ _ h)
      rw [if_neg t1] at h
      by_cases t2 : tool = "get_note"
      · rw [if_pos t2] at h
        try dsimp only at h
        exact Or.inl (resOK_inj _ _ _ _ h)
      rw [if_neg t2] at h
      by_cases t3 : tool = "get_all_notes"
      · rw [if_pos t3] at h
        try dsimp only at h
        exact Or.inl (resOK_inj _ _ _ _ h)
      rw [if_neg t3] at h
      by_cases t4 : tool = "delete_note"
      · rw [if_pos t4] at h
        try dsimp only at h
        exact Or.inl (resOK_inj _ _ _ _ h)
      rw [if_neg t4] at h
      by_cases t5 : tool = "get_date_and_time"
      · rw [if_pos t5] at h
        try dsimp only at h
        repeat' (first | split at h | dsimp only at h)
        all_goals
          first
          | exact Or.inl (resOK_dtresp _ _ _ _ _ _ h)
          | exact Or.inr (resOK_err _ _ h)
      rw [if_neg t5] at h
      by_cases t6 : tool = "get_weather"
      · rw [if_pos t6] at h
        simp only [get_weather] at h
        try dsimp only at h
        exact Or.inr (resOK_err _ _ h)
      rw [if_neg t6] at h
      by_cases t7 : tool = "create_event" ∨ tool = "update_event" ∨
          tool = "delete_event" ∨ tool = "get_events" ∨ tool = "get_all_events"
      · rw [if_pos t7] at h
        try dsimp only at h
        repeat' (first | split at h | dsimp only at h)
        all_goals
          first
          | exact Or.inl (resOK_inj _ _ _ _ h)
          | exact Or.inr (resOK_err _ _ h)
          | exact Or.inl (resOK_wrap _ _ _ _ h)
          | exact Val.noConfusion h
      rw [if_neg t7] at h
      by_cases t8 : CLOUD_FUNCTION_KEYS.contains tool = true
      · rw [if_pos t8] at h
        try dsimp only at h
        repeat' (first | split at h | dsimp only at h)
        all_goals
          first
          | exact Or.inl (resOK_inj _ _ _ _ h)
          | exact Or.inr (resOK_err _ _ h)
          | exact Val.noConfusion h
      · rw [if_neg t8] at h
        try dsimp only at h
        exact Or.inr (resOK_err _ _ h)

/-- Witness for the amended claim C1 at a concrete unregistered tool: the
result is error-shaped and carries no language. -/
theorem claim_C1_witness :
    supportedCodes.contains (detectedOf trivEnv []) = true
    ∧ ((dget [("error", Val.str ("Unknown tool: " ++ "bogus"))] "language" =
          some (Val.dictv
            [("code", Val.str (detectedOf trivEnv [])),
             ("name", Val.str (get_language_config (detectedOf trivEnv [])).name)]))
      ∨ ((∃ m, dget [("error", Val.str ("Unknown tool: " ++ "bogus"))] "error" = some m)
          ∧ dget [("error", Val.str ("Unknown tool: " ++ "bogus"))] "language" =
              Option.none)) :=
  ⟨(claim_C1_amended_language trivEnv "bogus" []).1,
   (claim_C1_amended_language trivEnv "bogus" []).2
     [("error", Val.str ("Unknown tool: " ++ "bogus"))] rfl⟩

end RTV
